import Mathlib

/-!
# gw2-addon-setup-debug: DLL classification (`dll.go`, `main.go`)

A shallow embedding of `parseDll`, the nine label predicates and
`asciiToWideString` of `dll.go`, and of `getDllPaths` and the processing loop of
`main.go`, with the properties of the classification record and of the run
proved over it.

Conventions of the embedding
* a Go `string` / `[]byte` is a `List Nat` of byte values (`byte(x)` is `x % 256`);
* a Go `(T, error)` result of a library call is an `Except GoError T`;
* an index-out-of-range panic is `none`;
* the file system and the PE library are a `World` of functions on paths.
-/

namespace Gw2AddonDebug

/-! ## Go strings, byte slices, errors -/

/-- A Go string: its bytes, in order. -/
abbrev GoString := List Nat

/-- The bytes of a source literal (UTF-8, as the Go compiler stores it). -/
def goString (s : String) : GoString :=
  s.toList.flatMap (fun c => (String.utf8EncodeChar c).map UInt8.toNat)

/-- A Go `error` value: a base error, or one wrapped with a message
(`errors.Wrapf`). -/
inductive GoError where
  | base (msg : GoString)
  | wrap (cause : GoError) (msg : GoString)
  deriving DecidableEq, Repr

/-- `errors.Wrapf(err, format + "%s", arg)` for a non-nil `err`. -/
def Wrapf (err : GoError) (format : String) (arg : GoString) : GoError :=
  GoError.wrap err (goString format ++ arg)

/-- The library call `bytes.HasPrefix`. -/
def startsWith : List Nat → List Nat → Bool
  | _, [] => true
  | [], _ :: _ => false
  | x :: s, y :: pre => x == y && startsWith s pre

/-- `bytes.Contains(b, subslice)`: some offset of `b` starts a copy of
`subslice` (offset `len(b)` included, for the empty `subslice`). -/
def Contains : List Nat → List Nat → Bool
  | [], subslice => startsWith [] subslice
  | x :: b, subslice => startsWith (x :: b) subslice || Contains b subslice

/-! ## `for i, c := range s` -/

/-- `utf8.RuneError`. -/
def RuneError : Nat := 0xFFFD

/-- `utf8.DecodeRuneInString`: the rune at the start of `s` and its width in
bytes; an invalid or truncated encoding gives `(RuneError, 1)`. -/
def DecodeRuneInString (s : GoString) : Nat × Nat :=
  match s with
  | [] => (RuneError, 0)
  | s0 :: t =>
    if s0 < 0x80 then (s0, 1)
    else if s0 < 0xC2 ∨ 0xF4 < s0 then (RuneError, 1)
    else
      let sz := if s0 < 0xE0 then 2 else if s0 < 0xF0 then 3 else 4
      let lo := if s0 = 0xE0 then 0xA0 else if s0 = 0xF0 then 0x90 else 0x80
      let hi := if s0 = 0xED then 0x9F else if s0 = 0xF4 then 0x8F else 0xBF
      if s.length < sz then (RuneError, 1)
      else
        match t with
        | [] => (RuneError, 1)
        | s1 :: t1 =>
          if s1 < lo ∨ hi < s1 then (RuneError, 1)
          else if sz ≤ 2 then (((s0 &&& 0x1F) <<< 6) ||| (s1 &&& 0x3F), 2)
          else
            match t1 with
            | [] => (RuneError, 1)
            | s2 :: t2 =>
              if s2 < 0x80 ∨ 0xBF < s2 then (RuneError, 1)
              else if sz ≤ 3 then
                (((s0 &&& 0x0F) <<< 12) ||| ((s1 &&& 0x3F) <<< 6) ||| (s2 &&& 0x3F), 3)
              else
                match t2 with
                | [] => (RuneError, 1)
                | s3 :: _ =>
                  if s3 < 0x80 ∨ 0xBF < s3 then (RuneError, 1)
                  else
                    (((s0 &&& 0x07) <<< 18) ||| ((s1 &&& 0x3F) <<< 12)
                      ||| ((s2 &&& 0x3F) <<< 6) ||| (s3 &&& 0x3F), 4)

/-- The iterations of `for i, c := range s` over the part of the string that
starts at byte offset `i`: `skip` bytes still belong to the rune decoded last
and start no iteration. -/
def rangeFrom : Nat → Nat → GoString → List (Nat × Nat)
  | _, _, [] => []
  | i, 0, b :: rest =>
    let rw := DecodeRuneInString (b :: rest)
    (i, rw.1) :: rangeFrom (i + 1) (rw.2 - 1) rest
  | i, skip + 1, _ :: rest => rangeFrom (i + 1) skip rest

/-- The `(i, c)` pairs of `for i, c := range s`: byte offset of each rune and
the rune. -/
def rangeString (s : GoString) : List (Nat × Nat) := rangeFrom 0 0 s

/-- The assignment `b[i] = v`; `none` is the index-out-of-range panic. -/
def setIndex (b : List Nat) (i v : Nat) : Option (List Nat) :=
  if i < b.length then some (b.set i v) else none

/-- The Go function `asciiToWideString`: a zeroed buffer of `len(s)*2` bytes,
then for each rune `c` at byte offset `i` the writes `b[i*2] = byte(c)` and
`b[i*2+1] = 0`. -/
def asciiToWideString (s : GoString) : Option (List Nat) :=
  (rangeString s).foldlM
    (fun b ic => (setIndex b (ic.1 * 2) (ic.2 % 256)).bind (fun b1 => setIndex b1 (ic.1 * 2 + 1) 0))
    (List.replicate (s.length * 2) 0)

/-! ## Package-level constants -/

/-- The constant `nexusApiUrl`. -/
def nexusApiUrl : GoString := goString "https://api.raidcore.gg"

/-- The package variable `addonLoaderDllUtf16`, initialised before `main`
runs (a panic in the initialiser would abort the program). -/
def addonLoaderDllUtf16 : List Nat :=
  (asciiToWideString (goString "addonLoader.dll")).getD []

/-- The package variable `addonLoaderCoreDescriptionUtf16`. -/
def addonLoaderCoreDescriptionUtf16 : List Nat :=
  (asciiToWideString (goString "core addon loading library")).getD []

/-! ## The PE file, as `dll.go` reads it -/

/-- An entry of `peFile.Export.Functions`; only `Name` is read. -/
structure ExportFunction where
  Name : GoString
  deriving DecidableEq, Repr

/-- The field `peFile.Export`. -/
structure Export where
  Functions : List ExportFunction
  deriving DecidableEq, Repr

/-- The type `peparser.File`, reduced to what `dll.go` reads. -/
structure File where
  Export : Export
  deriving DecidableEq, Repr

/-- The record `dllInfo`. `V` is the type `WinVersion`, declared outside
`dll.go`. -/
structure dllInfo (V : Type) where
  isArc : Bool
  isArcAddon : Bool
  isAddonLoaderShim : Bool
  isAddonLoaderCore : Bool
  isAddonLoaderAddon : Bool
  isNexus : Bool
  isNexusAddon : Bool
  isD3D11Shim : Bool
  isDXGIShim : Bool
  fileVersion : V

/-- The calls `parseDll` makes outside the package, as functions of their
arguments: `peparser.New`, `(*File).Parse` (state passing: the parsed file),
`os.ReadFile` and `GetFileVersion`. -/
structure World (V : Type) where
  New : GoString → Except GoError File
  Parse : File → Except GoError File
  ReadFile : GoString → Except GoError (List Nat)
  GetFileVersion : GoString → Except GoError V

/-! ## The label predicates -/

/-- The loop `for _, export := range fns { if export.Name == name { return true } }
return false`, shared by the six export predicates. -/
def exportLoop (name : GoString) : List ExportFunction → Bool
  | [] => false
  | exp :: rest => if exp.Name = name then true else exportLoop name rest

/-- The Go function `isArc`. -/
def isArc (peFile : File) : Bool :=
  exportLoop (goString "e0") peFile.Export.Functions

/-- The Go function `isArcAddon`. -/
def isArcAddon (peFile : File) : Bool :=
  exportLoop (goString "get_init_addr") peFile.Export.Functions

/-- The Go function `isAddonLoaderAddon`. -/
def isAddonLoaderAddon (peFile : File) : Bool :=
  exportLoop (goString "gw2addon_load") peFile.Export.Functions

/-- The Go function `isNexusAddon`. -/
def isNexusAddon (peFile : File) : Bool :=
  exportLoop (goString "GetAddonDef") peFile.Export.Functions

/-- The Go function `isDXGIShim`. -/
def isDXGIShim (peFile : File) : Bool :=
  exportLoop (goString "CreateDXGIFactory") peFile.Export.Functions

/-- The Go function `isD3D11Shim`. -/
def isD3D11Shim (peFile : File) : Bool :=
  exportLoop (goString "D3D11CreateDevice") peFile.Export.Functions

/-- The Go function `isNexus`. -/
def isNexus (peFile : File) (fileBytes : List Nat) : Bool :=
  if !isD3D11Shim peFile then false
  else
    let apiUrlPresent := Contains fileBytes nexusApiUrl
    apiUrlPresent

/-- The Go function `isAddonLoaderShim`. -/
def isAddonLoaderShim (peFile : File) (fileBytes : List Nat) : Bool :=
  if !isDXGIShim peFile && !isD3D11Shim peFile then false
  else
    let loaderStringPresent := Contains fileBytes addonLoaderDllUtf16
    loaderStringPresent

/-- The Go function `isAddonLoaderCore`. -/
def isAddonLoaderCore (peFile : File) (fileBytes : List Nat) : Bool :=
  if !isDXGIShim peFile || !isD3D11Shim peFile then false
  else
    let loaderStringPresent := Contains fileBytes addonLoaderCoreDescriptionUtf16
    loaderStringPresent

/-! ## `parseDll` -/

/-- The version `parseDll` stores: the one `GetFileVersion` returned, or the
zero value left in `info` when it returned an error. -/
def storedVersion {V : Type} [Inhabited V] (r : Except GoError V) : V :=
  match r with
  | .ok winVersion => winVersion
  | .error _ => default

/-- The zero value of `dllInfo` (`var info dllInfo`); `default` of `V` is the
zero value of `WinVersion`. -/
def dllInfo.zero {V : Type} [Inhabited V] : dllInfo V :=
  { isArc := false, isArcAddon := false, isAddonLoaderShim := false,
    isAddonLoaderCore := false, isAddonLoaderAddon := false, isNexus := false,
    isNexusAddon := false, isD3D11Shim := false, isDXGIShim := false,
    fileVersion := default }

/-- The Go function `parseDll`: the pair `(*dllInfo, error)` it returns, `none`
being `nil`. The logger argument is not used by the body. -/
def parseDll {V : Type} [Inhabited V] (w : World V) (dllPath : GoString) :
    Option (dllInfo V) × Option GoError :=
  let info : dllInfo V := dllInfo.zero
  match w.New dllPath with
  | .error err => (none, some (Wrapf err "failed to open PE file " dllPath))
  | .ok opened =>
  match w.Parse opened with
  | .error err => (none, some (Wrapf err "failed to parse PE file " dllPath))
  | .ok peFile =>
  match w.ReadFile dllPath with
  | .error err => (none, some (Wrapf err "failed to read file " dllPath))
  | .ok fileBytes =>
    let info := match w.GetFileVersion dllPath with
      | .ok winVersion => { info with fileVersion := winVersion }
      | .error _ => info
    let info := if isD3D11Shim peFile then { info with isD3D11Shim := true } else info
    let info := if isDXGIShim peFile then { info with isDXGIShim := true } else info
    let info := if isArc peFile then { info with isArc := true } else info
    let info := if isArcAddon peFile then { info with isArcAddon := true } else info
    let info := if isAddonLoaderShim peFile fileBytes then
      { info with isAddonLoaderShim := true } else info
    let info := if isAddonLoaderCore peFile fileBytes then
      { info with isAddonLoaderCore := true } else info
    let info := if isAddonLoaderAddon peFile then
      { info with isAddonLoaderAddon := true } else info
    let info := if isNexus peFile fileBytes then { info with isNexus := true } else info
    let info := if isNexusAddon peFile then { info with isNexusAddon := true } else info
    (some info, none)

/-! ## Sample inputs -/

/-- The export-name list of a parsed file: the `Name` of each entry of
`peFile.Export.Functions`, in order. -/
def File.exportNames (peFile : File) : List GoString :=
  peFile.Export.Functions.map (fun e => e.Name)

/-- Modelled from the spec: the declaration of the type `WinVersion` is outside
`dll.go`; section 3 of the specification describes the file version as four
unsigned 16-bit components (major, minor, build, revision). -/
structure WinVersion where
  major : Fin 65536
  minor : Fin 65536
  build : Fin 65536
  revision : Fin 65536
  deriving DecidableEq, Repr

/-- The Go zero value of `WinVersion`. -/
instance : Inhabited WinVersion := ⟨⟨0, 0, 0, 0⟩⟩

/-- A world in which every path holds one module: `peparser.New` opens it,
`Parse` fills in exports with the given names, `os.ReadFile` gives the given
bytes and `GetFileVersion` the given result. -/
def moduleWorld {V : Type} (names : List GoString) (fileBytes : List Nat)
    (version : Except GoError V) : World V :=
  { New := fun _ => .ok ⟨⟨[]⟩⟩
    Parse := fun _ => .ok ⟨⟨names.map ExportFunction.mk⟩⟩
    ReadFile := fun _ => .ok fileBytes
    GetFileVersion := fun _ => version }

/-- The file `moduleWorld names _ _` parses to. -/
def moduleFile (names : List GoString) : File := ⟨⟨names.map ExportFunction.mk⟩⟩

/-- A path used in examples: `d3d11.dll`. -/
def samplePath : GoString := goString "d3d11.dll"

/-- A version used in examples: 1.2.3.4. -/
def sampleVersion : WinVersion := ⟨1, 2, 3, 4⟩

/-! ## The processing loop of `main` -/

/-- A call on the logger made by the loop: `logger.Errorw(msg, "file", file,
"error", err)` or `logger.Infow(msg, "file", file, "info", info)`, where
`info` is the `*dllInfo` that `parseDll` returned. -/
inductive LogCall (V : Type) where
  | Errorw (msg : GoString) (file : GoString) (err : GoError)
  | Infow (msg : GoString) (file : GoString) (info : Option (dllInfo V))

/-- The loop `for _, dllPath := range dllPaths` of `main`, with the logger as
state: the calls made so far, oldest first. An error logs and continues with
the next path. -/
def mainLoop {V : Type} [Inhabited V] (w : World V) :
    List GoString → List (LogCall V) → List (LogCall V)
  | [], logged => logged
  | dllPath :: rest, logged =>
    match parseDll w dllPath with
    | (_, some err) =>
      mainLoop w rest (logged ++ [LogCall.Errorw (goString "Failed to parse DLL") dllPath err])
    | (dllInfo, none) =>
      mainLoop w rest (logged ++ [LogCall.Infow (goString "Parsed DLL") dllPath dllInfo])

/-! ## `getDllPaths` -/

/-- The operating-system constants `getDllPaths` depends on:
`os.PathSeparator` and `os.IsPathSeparator`. -/
structure GoOS where
  PathSeparator : Nat
  IsPathSeparator : Nat → Bool

/-- Windows: the separator is the backslash; the slash separates too. -/
def GoOS.windows : GoOS :=
  { PathSeparator := 92, IsPathSeparator := fun c => c == 92 || c == 47 }

/-- Unix: the slash. -/
def GoOS.unix : GoOS :=
  { PathSeparator := 47, IsPathSeparator := fun c => c == 47 }

/-- The loop of `filepath.Ext`, from the last byte backwards: `before` holds the
bytes up to index `i`, last first, and `after` is `path[i+1:]`. -/
def extLoop (os : GoOS) : List Nat → List Nat → GoString
  | [], _ => []
  | c :: before, after =>
    if os.IsPathSeparator c then []
    else if c = 46 then c :: after
    else extLoop os before (c :: after)

/-- `filepath.Ext(path)`: the suffix that starts at the final dot of the final
element of `path`, empty if there is none. -/
def Ext (os : GoOS) (path : GoString) : GoString := extLoop os path.reverse []

/-- `strings.TrimPrefix(s, pre)`. -/
def TrimPrefix (s pre : GoString) : GoString :=
  if startsWith s pre then s.drop pre.length else s

/-- One call of the function passed to `filepath.Walk`: the path, `info.IsDir()`
and the error argument. -/
structure WalkVisit where
  path : GoString
  IsDir : Bool
  err : Option GoError
  deriving DecidableEq, Repr

/-- The Go function `getDllPaths`. `Walk workDir` is the sequence of visits
`filepath.Walk` makes (the callback never asks to skip). `none` is the exit of
the process in `logger.Fatalw`. -/
def getDllPaths (os : GoOS) (Walk : GoString → List WalkVisit) (workDir : GoString) :
    Option (List GoString) :=
  (Walk workDir).foldlM
    (fun dllPaths visit =>
      if visit.err.isSome then none
      else if visit.IsDir then some dllPaths
      else if Ext os visit.path = goString ".dll" then
        some (dllPaths ++ [TrimPrefix visit.path (workDir ++ [os.PathSeparator])])
      else some dllPaths)
    []

/-! ## The two-phase evaluation of the specification -/

/-- Specification, section 4.2: `hasExport(facts, name)` is true iff `name`
appears verbatim in `exportedNames`. -/
def specHasExport (exportedNames : List GoString) (name : GoString) : Bool :=
  decide (name ∈ exportedNames)

/-- Specification, section 4.1: the UTF-16LE form of an ASCII pattern, each
character code followed by a zero byte, no terminator. -/
def specUtf16le (needle : GoString) : List Nat :=
  needle.flatMap (fun c => [c, 0])

/-- Specification, section 4.1: `contains`, an exact contiguous match of the
encoded needle anywhere in the haystack. -/
def specContains (haystack encoded : List Nat) : Bool :=
  decide (encoded <:+: haystack)

/-- Specification, section 9: the immutable intermediate structure holding the
base predicates. -/
structure BaseLabels where
  isGraphicsShimPrimary : Bool
  isGraphicsShimSecondary : Bool
  isStatsModule : Bool
  isStatsAddon : Bool
  isGenericLoaderAddon : Bool
  isFrameworkAddon : Bool

/-- Specification, section 4.2, first phase: the base predicates. -/
def specBasePhase (exportedNames : List GoString) : BaseLabels :=
  { isGraphicsShimPrimary := specHasExport exportedNames (goString "D3D11CreateDevice")
    isGraphicsShimSecondary := specHasExport exportedNames (goString "CreateDXGIFactory")
    isStatsModule := specHasExport exportedNames (goString "e0")
    isStatsAddon := specHasExport exportedNames (goString "get_init_addr")
    isGenericLoaderAddon := specHasExport exportedNames (goString "gw2addon_load")
    isFrameworkAddon := specHasExport exportedNames (goString "GetAddonDef") }

/-- Specification, section 4.2, second phase: the dependent predicates, read
from the stored base labels and the raw bytes only, assembled into the record
(label names of the specification mapped onto the fields of `dllInfo`). -/
def specDependentPhase {V : Type} (base : BaseLabels) (rawBytes : List Nat)
    (fileVersion : V) : dllInfo V :=
  { isArc := base.isStatsModule
    isArcAddon := base.isStatsAddon
    isAddonLoaderShim := (base.isGraphicsShimPrimary || base.isGraphicsShimSecondary)
      && specContains rawBytes (specUtf16le (goString "addonLoader.dll"))
    isAddonLoaderCore := base.isGraphicsShimPrimary && base.isGraphicsShimSecondary
      && specContains rawBytes (specUtf16le (goString "core addon loading library"))
    isAddonLoaderAddon := base.isGenericLoaderAddon
    isNexus := base.isGraphicsShimPrimary
      && specContains rawBytes (goString "https://api.raidcore.gg")
    isNexusAddon := base.isFrameworkAddon
    isD3D11Shim := base.isGraphicsShimPrimary
    isDXGIShim := base.isGraphicsShimSecondary
    fileVersion := fileVersion }

/-- Specification, section 9: the two-phase evaluation. -/
def specTwoPhase {V : Type} (exportedNames : List GoString) (rawBytes : List Nat)
    (fileVersion : V) : dllInfo V :=
  specDependentPhase (specBasePhase exportedNames) rawBytes fileVersion

/-! ## More sample inputs -/

/-- A Windows path: the parts joined with backslashes. -/
def winPath : List String → GoString
  | [] => []
  | [part] => goString part
  | part :: rest => goString part ++ 92 :: winPath rest

/-- The working directory of the examples. -/
def sampleWorkDir : GoString := winPath ["C:", "Game"]

/-- A walk of the working directory, in the lexical order of `filepath.Walk`:
the directory itself, `D3D11.DLL`, `Gw2.dat`, a directory `addons.dll` and
`addons.dll\arcdps.dll` inside it, and `d3d11.dll`. -/
def sampleWalk : GoString → List WalkVisit := fun _ =>
  [ ⟨winPath ["C:", "Game"], true, none⟩,
    ⟨winPath ["C:", "Game", "D3D11.DLL"], false, none⟩,
    ⟨winPath ["C:", "Game", "Gw2.dat"], false, none⟩,
    ⟨winPath ["C:", "Game", "addons.dll"], true, none⟩,
    ⟨winPath ["C:", "Game", "addons.dll", "arcdps.dll"], false, none⟩,
    ⟨winPath ["C:", "Game", "d3d11.dll"], false, none⟩ ]

/-- The root of drive C as working directory: `C:\`. -/
def rootWorkDir : GoString := winPath ["C:", ""]

/-- A walk of the root of drive C: the root itself and `C:\d3d11.dll`. -/
def rootWalk : GoString → List WalkVisit := fun _ =>
  [ ⟨winPath ["C:", ""], true, none⟩,
    ⟨winPath ["C:", "d3d11.dll"], false, none⟩ ]

/-- A module exporting all six marker names whose bytes hold the three marker
patterns one after the other. -/
def fullWorld : World WinVersion :=
  moduleWorld
    [goString "D3D11CreateDevice", goString "CreateDXGIFactory", goString "e0",
      goString "get_init_addr", goString "gw2addon_load", goString "GetAddonDef"]
    (addonLoaderDllUtf16 ++ addonLoaderCoreDescriptionUtf16 ++ nexusApiUrl)
    (.ok sampleVersion)

/-- A world in which `broken.dll` cannot be opened and every other path holds a
module exporting `e0`. -/
def brokenFirstWorld : World WinVersion :=
  { New := fun dllPath =>
      if dllPath = goString "broken.dll" then .error (GoError.base (goString "not a PE file"))
      else .ok ⟨⟨[]⟩⟩
    Parse := fun _ => .ok (moduleFile [goString "e0"])
    ReadFile := fun _ => .ok [1, 2, 3]
    GetFileVersion := fun _ => .ok sampleVersion }

/-! ## Library facts: prefix and substring search -/

theorem startsWith_iff (s pre : List Nat) :
    startsWith s pre = true ↔ ∃ q, s = pre ++ q := by
  induction pre generalizing s with
  | nil => simp [startsWith]
  | cons y pre ih =>
    cases s with
    | nil => simp [startsWith]
    | cons x s =>
      simp only [startsWith, Bool.and_eq_true, beq_iff_eq, ih, List.cons_append,
        List.cons.injEq]
      constructor
      · rintro ⟨rfl, q, rfl⟩
        exact ⟨q, rfl, rfl⟩
      · rintro ⟨q, rfl, rfl⟩
        exact ⟨rfl, q, rfl⟩

theorem Contains_iff (b subslice : List Nat) :
    Contains b subslice = true ↔ ∃ p q, b = p ++ subslice ++ q := by
  induction b with
  | nil =>
    simp only [Contains, startsWith_iff]
    constructor
    · rintro ⟨q, hq⟩
      exact ⟨[], q, by simpa using hq⟩
    · rintro ⟨p, q, hpq⟩
      have h1 : p = [] := by
        cases p with
        | nil => rfl
        | cons a p => simp at hpq
      subst h1
      exact ⟨q, by simpa using hpq⟩
  | cons x b ih =>
    simp only [Contains, Bool.or_eq_true, startsWith_iff, ih]
    constructor
    · rintro (⟨q, hq⟩ | ⟨p, q, hpq⟩)
      · exact ⟨[], q, by simpa using hq⟩
      · exact ⟨x :: p, q, by simp [hpq]⟩
    · rintro ⟨p, q, hpq⟩
      cases p with
      | nil => exact Or.inl ⟨q, by simpa using hpq⟩
      | cons a p =>
        simp only [List.cons_append, List.cons.injEq] at hpq
        exact Or.inr ⟨p, q, by simp [hpq.2]⟩

theorem exportLoop_iff (name : GoString) (fns : List ExportFunction) :
    exportLoop name fns = true ↔ name ∈ fns.map (fun e => e.Name) := by
  induction fns with
  | nil => simp [exportLoop]
  | cons e rest ih =>
    by_cases h : e.Name = name
    · simp [exportLoop, h]
    · have h2 : ¬ name = e.Name := fun h3 => h h3.symm
      simp [exportLoop, h, h2, ih]

theorem parseDll_extracted {V : Type} [Inhabited V] (w : World V) (dllPath : GoString)
    (opened peFile : File) (fileBytes : List Nat)
    (hNew : w.New dllPath = .ok opened) (hParse : w.Parse opened = .ok peFile)
    (hRead : w.ReadFile dllPath = .ok fileBytes) :
    parseDll w dllPath =
      (some { isArc := isArc peFile
              isArcAddon := isArcAddon peFile
              isAddonLoaderShim := isAddonLoaderShim peFile fileBytes
              isAddonLoaderCore := isAddonLoaderCore peFile fileBytes
              isAddonLoaderAddon := isAddonLoaderAddon peFile
              isNexus := isNexus peFile fileBytes
              isNexusAddon := isNexusAddon peFile
              isD3D11Shim := isD3D11Shim peFile
              isDXGIShim := isDXGIShim peFile
              fileVersion := storedVersion (w.GetFileVersion dllPath) }, none) := by
  unfold parseDll
  simp -zeta only [hNew, hParse, hRead]
  cases w.GetFileVersion dllPath <;> cases isD3D11Shim peFile <;> cases isDXGIShim peFile <;>
    cases isArc peFile <;> cases isArcAddon peFile <;>
    cases isAddonLoaderShim peFile fileBytes <;> cases isAddonLoaderCore peFile fileBytes <;>
    cases isAddonLoaderAddon peFile <;> cases isNexus peFile fileBytes <;>
    cases isNexusAddon peFile <;> rfl

theorem parseDll_open_failed {V : Type} [Inhabited V] (w : World V) (dllPath : GoString)
    (e : GoError) (hNew : w.New dllPath = .error e) :
    parseDll w dllPath = (none, some (Wrapf e "failed to open PE file " dllPath)) := by
  unfold parseDll
  simp -zeta only [hNew]

theorem parseDll_parse_failed {V : Type} [Inhabited V] (w : World V) (dllPath : GoString)
    (opened : File) (e : GoError) (hNew : w.New dllPath = .ok opened)
    (hParse : w.Parse opened = .error e) :
    parseDll w dllPath = (none, some (Wrapf e "failed to parse PE file " dllPath)) := by
  unfold parseDll
  simp -zeta only [hNew, hParse]

theorem parseDll_read_failed {V : Type} [Inhabited V] (w : World V) (dllPath : GoString)
    (opened peFile : File) (e : GoError) (hNew : w.New dllPath = .ok opened)
    (hParse : w.Parse opened = .ok peFile) (hRead : w.ReadFile dllPath = .error e) :
    parseDll w dllPath = (none, some (Wrapf e "failed to read file " dllPath)) := by
  unfold parseDll
  simp -zeta only [hNew, hParse, hRead]

/-! ## `asciiToWideString` on ASCII strings -/

theorem DecodeRuneInString_ascii (c : Nat) (rest : GoString) (h : c < 128) :
    DecodeRuneInString (c :: rest) = (c, 1) := by
  simp [DecodeRuneInString, h]

theorem set_append_here (pre : List Nat) (x v : Nat) (t : List Nat) :
    (pre ++ x :: t).set pre.length v = pre ++ v :: t := by
  induction pre with
  | nil => rfl
  | cons a pre ih => simp [ih]

theorem wideLoop_ascii (s : GoString) (hs : ∀ c ∈ s, c < 128) (pre : List Nat) (i : Nat)
    (hpre : pre.length = i * 2) :
    (rangeFrom i 0 s).foldlM
      (fun b ic => (setIndex b (ic.1 * 2) (ic.2 % 256)).bind
        (fun b1 => setIndex b1 (ic.1 * 2 + 1) 0))
      (pre ++ List.replicate (s.length * 2) 0)
    = some (pre ++ s.flatMap (fun c => [c, 0])) := by
  induction s generalizing pre i with
  | nil => simp [rangeFrom]
  | cons c rest ih =>
    have hc : c < 128 := hs c (List.mem_cons_self _ _)
    have hrest : ∀ d ∈ rest, d < 128 := fun d hd => hs d (List.mem_cons_of_mem _ hd)
    have hmod : c % 256 = c := Nat.mod_eq_of_lt (by omega)
    have hrep : List.replicate ((c :: rest).length * 2) 0
        = 0 :: 0 :: List.replicate (rest.length * 2) 0 := by
      have : (c :: rest).length * 2 = rest.length * 2 + 1 + 1 := by simp; omega
      rw [this, List.replicate_succ, List.replicate_succ]
    have h1 : setIndex (pre ++ 0 :: 0 :: List.replicate (rest.length * 2) 0) (i * 2) c
        = some (pre ++ c :: 0 :: List.replicate (rest.length * 2) 0) := by
      unfold setIndex
      rw [if_pos (by simp; omega), ← hpre, set_append_here]
    have h2 : setIndex (pre ++ c :: 0 :: List.replicate (rest.length * 2) 0) (i * 2 + 1) 0
        = some ((pre ++ [c, 0]) ++ List.replicate (rest.length * 2) 0) := by
      unfold setIndex
      rw [if_pos (by simp; omega)]
      have h3 : pre ++ c :: 0 :: List.replicate (rest.length * 2) 0
          = (pre ++ [c]) ++ 0 :: List.replicate (rest.length * 2) 0 := by simp
      have h4 : i * 2 + 1 = (pre ++ [c]).length := by simp [hpre]
      rw [h3, h4, set_append_here]
      simp
    have hstep := ih hrest (pre ++ [c, 0]) (i + 1) (by simp [hpre]; omega)
    rw [rangeFrom, DecodeRuneInString_ascii c rest hc, hrep]
    simp only [List.foldlM_cons, hmod, h1, Option.some_bind, h2, Option.bind_eq_bind,
      Nat.sub_self]
    rw [hstep]
    simp

theorem asciiToWideString_ascii (s : GoString) (hs : ∀ c ∈ s, c < 128) :
    asciiToWideString s = some (s.flatMap (fun c => [c, 0])) := by
  have h := wideLoop_ascii s hs [] 0 rfl
  simpa [asciiToWideString, rangeString] using h

theorem wide_length (s : GoString) :
    (s.flatMap (fun c => [c, 0])).length = 2 * s.length := by
  induction s with
  | nil => rfl
  | cons c rest ih => simp [List.flatMap_cons, ih]; omega

theorem wide_getElem (s : GoString) (i : Nat) (h : i < s.length) :
    (s.flatMap (fun c => [c, 0]))[2 * i]? = some s[i]
      ∧ (s.flatMap (fun c => [c, 0]))[2 * i + 1]? = some 0 := by
  induction s generalizing i with
  | nil => simp at h
  | cons c rest ih =>
    cases i with
    | zero => simp [List.flatMap_cons]
    | succ j =>
      have hj : j < rest.length := by simpa using h
      have e1 : 2 * (j + 1) = 2 * j + 1 + 1 := by omega
      have e2 : 2 * (j + 1) + 1 = 2 * j + 1 + 1 + 1 := by omega
      have := ih j hj
      simp only [List.flatMap_cons, e1, e2, List.cons_append, List.nil_append,
        List.getElem?_cons_succ, List.getElem_cons_succ]
      exact this

/-! ## The label predicates, in closed form -/

theorem isD3D11Shim_iff (peFile : File) :
    isD3D11Shim peFile = true ↔ goString "D3D11CreateDevice" ∈ peFile.exportNames :=
  exportLoop_iff _ _

theorem isDXGIShim_iff (peFile : File) :
    isDXGIShim peFile = true ↔ goString "CreateDXGIFactory" ∈ peFile.exportNames :=
  exportLoop_iff _ _

theorem isAddonLoaderShim_eq (peFile : File) (fileBytes : List Nat) :
    isAddonLoaderShim peFile fileBytes
      = ((isD3D11Shim peFile || isDXGIShim peFile) && Contains fileBytes addonLoaderDllUtf16) := by
  unfold isAddonLoaderShim
  cases isD3D11Shim peFile <;> cases isDXGIShim peFile <;> simp

theorem isAddonLoaderCore_eq (peFile : File) (fileBytes : List Nat) :
    isAddonLoaderCore peFile fileBytes
      = (isD3D11Shim peFile && isDXGIShim peFile
          && Contains fileBytes addonLoaderCoreDescriptionUtf16) := by
  unfold isAddonLoaderCore
  cases isD3D11Shim peFile <;> cases isDXGIShim peFile <;> simp

theorem isNexus_eq (peFile : File) (fileBytes : List Nat) :
    isNexus peFile fileBytes = (isD3D11Shim peFile && Contains fileBytes nexusApiUrl) := by
  unfold isNexus
  cases isD3D11Shim peFile <;> simp

theorem addonLoaderDllUtf16_init :
    asciiToWideString (goString "addonLoader.dll") = some addonLoaderDllUtf16 := by
  decide

theorem addonLoaderCoreDescriptionUtf16_init :
    asciiToWideString (goString "core addon loading library")
      = some addonLoaderCoreDescriptionUtf16 := by
  decide

/-! ## Claims -/

/-- C1: for every module that `parseDll` extracts, the stored `isAddonLoaderShim`
is true exactly when the stored `isD3D11Shim` or `isDXGIShim` is true and the raw
bytes contain, as one contiguous run, `asciiToWideString("addonLoader.dll")`,
which is the 30-byte sequence of each character code followed by a zero byte. -/
theorem isAddonLoaderShim_label_iff {V : Type} [Inhabited V] (w : World V)
    (dllPath : GoString) (opened peFile : File) (fileBytes : List Nat)
    (hNew : w.New dllPath = .ok opened) (hParse : w.Parse opened = .ok peFile)
    (hRead : w.ReadFile dllPath = .ok fileBytes) :
    asciiToWideString (goString "addonLoader.dll") = some addonLoaderDllUtf16
    ∧ addonLoaderDllUtf16 = (goString "addonLoader.dll").flatMap (fun c => [c, 0])
    ∧ addonLoaderDllUtf16.length = 30
    ∧ ∃ info, parseDll w dllPath = (some info, none)
      ∧ (info.isAddonLoaderShim = true ↔
          (info.isD3D11Shim = true ∨ info.isDXGIShim = true)
            ∧ ∃ p q, fileBytes = p ++ addonLoaderDllUtf16 ++ q) := by
  refine ⟨addonLoaderDllUtf16_init, by decide, by decide, _,
    parseDll_extracted w dllPath opened peFile fileBytes hNew hParse hRead, ?_⟩
  simp only [isAddonLoaderShim_eq, Bool.and_eq_true, Bool.or_eq_true, Contains_iff]

/-- Witness of C1: a module exporting only `CreateDXGIFactory` whose bytes are the
wide marker between two other bytes. -/
theorem isAddonLoaderShim_label_iff_witness :
    asciiToWideString (goString "addonLoader.dll") = some addonLoaderDllUtf16
    ∧ addonLoaderDllUtf16 = (goString "addonLoader.dll").flatMap (fun c => [c, 0])
    ∧ addonLoaderDllUtf16.length = 30
    ∧ ∃ info : dllInfo WinVersion,
      parseDll (moduleWorld [goString "CreateDXGIFactory"] (7 :: addonLoaderDllUtf16 ++ [9])
        (.ok sampleVersion)) samplePath = (some info, none)
      ∧ (info.isAddonLoaderShim = true ↔
          (info.isD3D11Shim = true ∨ info.isDXGIShim = true)
            ∧ ∃ p q, 7 :: addonLoaderDllUtf16 ++ [9] = p ++ addonLoaderDllUtf16 ++ q) :=
  isAddonLoaderShim_label_iff
    (moduleWorld [goString "CreateDXGIFactory"] (7 :: addonLoaderDllUtf16 ++ [9])
      (.ok sampleVersion))
    samplePath ⟨⟨[]⟩⟩ (moduleFile [goString "CreateDXGIFactory"])
    (7 :: addonLoaderDllUtf16 ++ [9]) rfl rfl rfl

/-- C2: the stored `isAddonLoaderCore` is true exactly when the stored
`isD3D11Shim` and `isDXGIShim` are both true and the raw bytes contain the wide
form of "core addon loading library"; so it is true when both
`D3D11CreateDevice` and `CreateDXGIFactory` are exported and the pattern is
present, and false when either export is missing. -/
theorem isAddonLoaderCore_label_iff {V : Type} [Inhabited V] (w : World V)
    (dllPath : GoString) (opened peFile : File) (fileBytes : List Nat)
    (hNew : w.New dllPath = .ok opened) (hParse : w.Parse opened = .ok peFile)
    (hRead : w.ReadFile dllPath = .ok fileBytes) :
    addonLoaderCoreDescriptionUtf16
      = (goString "core addon loading library").flatMap (fun c => [c, 0])
    ∧ ∃ info, parseDll w dllPath = (some info, none)
      ∧ (info.isAddonLoaderCore = true ↔
          info.isD3D11Shim = true ∧ info.isDXGIShim = true
            ∧ ∃ p q, fileBytes = p ++ addonLoaderCoreDescriptionUtf16 ++ q)
      ∧ (goString "D3D11CreateDevice" ∈ peFile.exportNames →
          goString "CreateDXGIFactory" ∈ peFile.exportNames →
          (∃ p q, fileBytes = p ++ addonLoaderCoreDescriptionUtf16 ++ q) →
          info.isAddonLoaderCore = true)
      ∧ (goString "D3D11CreateDevice" ∉ peFile.exportNames
          ∨ goString "CreateDXGIFactory" ∉ peFile.exportNames →
          info.isAddonLoaderCore = false) := by
  refine ⟨by decide, _,
    parseDll_extracted w dllPath opened peFile fileBytes hNew hParse hRead, ?_, ?_, ?_⟩
  · simp only [isAddonLoaderCore_eq, Bool.and_eq_true, Contains_iff, and_assoc]
  · intro h1 h2 h3
    simp only [isAddonLoaderCore_eq, Bool.and_eq_true, Contains_iff]
    exact ⟨⟨(isD3D11Shim_iff peFile).2 h1, (isDXGIShim_iff peFile).2 h2⟩, h3⟩
  · intro h
    simp only [isAddonLoaderCore_eq]
    rcases h with h | h
    · have : isD3D11Shim peFile = false := by
        rw [← Bool.not_eq_true, isD3D11Shim_iff]; exact h
      simp [this]
    · have : isDXGIShim peFile = false := by
        rw [← Bool.not_eq_true, isDXGIShim_iff]; exact h
      simp [this]

/-- Witness of C2: a module exporting both graphics entry points whose bytes are
the wide description string. -/
theorem isAddonLoaderCore_label_iff_witness :
    ∃ info : dllInfo WinVersion,
      parseDll (moduleWorld [goString "D3D11CreateDevice", goString "CreateDXGIFactory"]
        addonLoaderCoreDescriptionUtf16 (.ok sampleVersion)) samplePath = (some info, none)
      ∧ info.isAddonLoaderCore = true := by
  obtain ⟨_, info, hinfo, _, himp, _⟩ := isAddonLoaderCore_label_iff
    (moduleWorld [goString "D3D11CreateDevice", goString "CreateDXGIFactory"]
      addonLoaderCoreDescriptionUtf16 (.ok sampleVersion))
    samplePath ⟨⟨[]⟩⟩ (moduleFile [goString "D3D11CreateDevice", goString "CreateDXGIFactory"])
    addonLoaderCoreDescriptionUtf16 rfl rfl rfl
  exact ⟨info, hinfo, himp (by decide) (by decide) ⟨[], [], by simp⟩⟩

/-- C3: the stored `isNexus` is true exactly when the stored `isD3D11Shim` is
true and the raw bytes contain the plain bytes of "https://api.raidcore.gg"; two
modules with the same bytes whose export lists agree on every name other than
`CreateDXGIFactory` get the same `isNexus`. -/
theorem isNexus_label_iff {V : Type} [Inhabited V] (w w2 : World V)
    (dllPath dllPath2 : GoString) (opened peFile opened2 peFile2 : File)
    (fileBytes : List Nat)
    (hNew : w.New dllPath = .ok opened) (hParse : w.Parse opened = .ok peFile)
    (hRead : w.ReadFile dllPath = .ok fileBytes)
    (hNew2 : w2.New dllPath2 = .ok opened2) (hParse2 : w2.Parse opened2 = .ok peFile2)
    (hRead2 : w2.ReadFile dllPath2 = .ok fileBytes)
    (hSame : ∀ name, name ≠ goString "CreateDXGIFactory" →
      (name ∈ peFile.exportNames ↔ name ∈ peFile2.exportNames)) :
    ∃ info info2, parseDll w dllPath = (some info, none)
      ∧ parseDll w2 dllPath2 = (some info2, none)
      ∧ (info.isNexus = true ↔
          info.isD3D11Shim = true
            ∧ ∃ p q, fileBytes = p ++ goString "https://api.raidcore.gg" ++ q)
      ∧ info.isNexus = info2.isNexus := by
  refine ⟨_, _, parseDll_extracted w dllPath opened peFile fileBytes hNew hParse hRead,
    parseDll_extracted w2 dllPath2 opened2 peFile2 fileBytes hNew2 hParse2 hRead2, ?_, ?_⟩
  · simp only [isNexus_eq, Bool.and_eq_true, Contains_iff, nexusApiUrl]
  · have h : isD3D11Shim peFile = isD3D11Shim peFile2 := by
      rw [Bool.eq_iff_iff, isD3D11Shim_iff, isD3D11Shim_iff]
      exact hSame _ (by decide)
    simp only [isNexus_eq, h]

/-- Witness of C3: the same bytes, once exported with `D3D11CreateDevice` alone
and once with `CreateDXGIFactory` added; both are Nexus. -/
theorem isNexus_label_iff_witness :
    ∃ info info2 : dllInfo WinVersion,
      parseDll (moduleWorld [goString "D3D11CreateDevice"] nexusApiUrl (.ok sampleVersion))
        samplePath = (some info, none)
      ∧ parseDll (moduleWorld [goString "CreateDXGIFactory", goString "D3D11CreateDevice"]
          nexusApiUrl (.ok sampleVersion)) samplePath = (some info2, none)
      ∧ info.isNexus = true ∧ info2.isNexus = true := by
  obtain ⟨info, info2, h1, h2, hiff, heq⟩ := isNexus_label_iff
    (moduleWorld [goString "D3D11CreateDevice"] nexusApiUrl (.ok sampleVersion))
    (moduleWorld [goString "CreateDXGIFactory", goString "D3D11CreateDevice"] nexusApiUrl
      (.ok sampleVersion))
    samplePath samplePath ⟨⟨[]⟩⟩ (moduleFile [goString "D3D11CreateDevice"]) ⟨⟨[]⟩⟩
    (moduleFile [goString "CreateDXGIFactory", goString "D3D11CreateDevice"])
    nexusApiUrl rfl rfl rfl rfl rfl rfl
    (by
      intro name hname
      simp only [File.exportNames, moduleFile, List.map_map, List.map_cons, List.map_nil,
        Function.comp, List.mem_cons, List.mem_singleton, List.not_mem_nil, or_false]
      constructor
      · intro h; exact Or.inr h
      · rintro (h | h)
        · exact absurd h hname
        · exact h)
  have hd : info.isD3D11Shim = true := by
    have h3 := parseDll_extracted
      (moduleWorld [goString "D3D11CreateDevice"] nexusApiUrl (Except.ok sampleVersion))
      samplePath ⟨⟨[]⟩⟩ (moduleFile [goString "D3D11CreateDevice"]) nexusApiUrl rfl rfl rfl
    rw [h1] at h3
    have h4 := (Prod.mk.inj h3).1
    rw [Option.some.injEq] at h4
    rw [h4]
    decide
  have hn : info.isNexus = true := hiff.2 ⟨hd, [], [], by simp [nexusApiUrl]⟩
  exact ⟨info, info2, h1, h2, hn, heq ▸ hn⟩

/-- C4: each of the six base labels stored in the record equals exact
membership of its marker name in the export-name list; a module whose only
export is `get_init_addr_v2` has `isArcAddon = false`; and the six labels of a
second extraction of the same parsed file with any other bytes are the same. -/
theorem base_labels_exact {V : Type} [Inhabited V] (w w2 : World V)
    (dllPath dllPath2 : GoString) (opened opened2 peFile : File)
    (fileBytes fileBytes2 : List Nat)
    (hNew : w.New dllPath = .ok opened) (hParse : w.Parse opened = .ok peFile)
    (hRead : w.ReadFile dllPath = .ok fileBytes)
    (hNew2 : w2.New dllPath2 = .ok opened2) (hParse2 : w2.Parse opened2 = .ok peFile)
    (hRead2 : w2.ReadFile dllPath2 = .ok fileBytes2) :
    ∃ info info2, parseDll w dllPath = (some info, none)
      ∧ parseDll w2 dllPath2 = (some info2, none)
      ∧ (info.isD3D11Shim = true ↔ goString "D3D11CreateDevice" ∈ peFile.exportNames)
      ∧ (info.isDXGIShim = true ↔ goString "CreateDXGIFactory" ∈ peFile.exportNames)
      ∧ (info.isArc = true ↔ goString "e0" ∈ peFile.exportNames)
      ∧ (info.isArcAddon = true ↔ goString "get_init_addr" ∈ peFile.exportNames)
      ∧ (info.isAddonLoaderAddon = true ↔ goString "gw2addon_load" ∈ peFile.exportNames)
      ∧ (info.isNexusAddon = true ↔ goString "GetAddonDef" ∈ peFile.exportNames)
      ∧ (peFile.exportNames = [goString "get_init_addr_v2"] → info.isArcAddon = false)
      ∧ (info2.isD3D11Shim = info.isD3D11Shim ∧ info2.isDXGIShim = info.isDXGIShim
          ∧ info2.isArc = info.isArc ∧ info2.isArcAddon = info.isArcAddon
          ∧ info2.isAddonLoaderAddon = info.isAddonLoaderAddon
          ∧ info2.isNexusAddon = info.isNexusAddon) := by
  refine ⟨_, _, parseDll_extracted w dllPath opened peFile fileBytes hNew hParse hRead,
    parseDll_extracted w2 dllPath2 opened2 peFile fileBytes2 hNew2 hParse2 hRead2,
    exportLoop_iff _ _, exportLoop_iff _ _, exportLoop_iff _ _, exportLoop_iff _ _,
    exportLoop_iff _ _, exportLoop_iff _ _, ?_, rfl, rfl, rfl, rfl, rfl, rfl⟩
  intro h
  have hiff : isArcAddon peFile = true ↔ goString "get_init_addr" ∈ peFile.exportNames :=
    exportLoop_iff _ _
  rw [h] at hiff
  rw [← Bool.not_eq_true, hiff]
  decide

/-- Witness of C4: the module whose only export is `get_init_addr_v2`, read once
with empty bytes and once with the Nexus URL as bytes. -/
theorem base_labels_exact_witness :
    ∃ info info2 : dllInfo WinVersion,
      parseDll (moduleWorld [goString "get_init_addr_v2"] [] (.ok sampleVersion)) samplePath
        = (some info, none)
      ∧ parseDll (moduleWorld [goString "get_init_addr_v2"] nexusApiUrl (.ok sampleVersion))
          samplePath = (some info2, none)
      ∧ info.isArcAddon = false ∧ info2.isArcAddon = false := by
  obtain ⟨info, info2, h1, h2, _, _, _, _, _, _, hv2, _, _, _, heq, _⟩ := base_labels_exact
    (moduleWorld [goString "get_init_addr_v2"] [] (.ok sampleVersion))
    (moduleWorld [goString "get_init_addr_v2"] nexusApiUrl (.ok sampleVersion))
    samplePath samplePath ⟨⟨[]⟩⟩ ⟨⟨[]⟩⟩ (moduleFile [goString "get_init_addr_v2"])
    [] nexusApiUrl rfl rfl rfl rfl rfl rfl
  have hf : info.isArcAddon = false := hv2 rfl
  exact ⟨info, info2, h1, h2, hf, heq.trans hf⟩

/-- C5: in the record `parseDll` returns, `isAddonLoaderShim = true` implies
`isD3D11Shim = true` or `isDXGIShim = true`, `isAddonLoaderCore = true` implies
both, and `isNexus = true` implies `isD3D11Shim = true`. -/
theorem dependent_labels_need_prerequisite {V : Type} [Inhabited V] (w : World V)
    (dllPath : GoString) (info : dllInfo V) (err : Option GoError)
    (h : parseDll w dllPath = (some info, err)) :
    (info.isAddonLoaderShim = true → info.isD3D11Shim = true ∨ info.isDXGIShim = true)
    ∧ (info.isAddonLoaderCore = true → info.isD3D11Shim = true ∧ info.isDXGIShim = true)
    ∧ (info.isNexus = true → info.isD3D11Shim = true) := by
  cases hNew : w.New dllPath with
  | error e => simp [parseDll_open_failed w dllPath e hNew] at h
  | ok opened =>
    cases hParse : w.Parse opened with
    | error e => simp [parseDll_parse_failed w dllPath opened e hNew hParse] at h
    | ok peFile =>
      cases hRead : w.ReadFile dllPath with
      | error e => simp [parseDll_read_failed w dllPath opened peFile e hNew hParse hRead] at h
      | ok fileBytes =>
        rw [parseDll_extracted w dllPath opened peFile fileBytes hNew hParse hRead] at h
        have h1 := (Prod.mk.inj h).1
        rw [Option.some.injEq] at h1
        subst h1
        simp only [isAddonLoaderShim_eq, isAddonLoaderCore_eq, isNexus_eq, Bool.and_eq_true,
          Bool.or_eq_true]
        exact ⟨fun h => h.1, fun h => h.1, fun h => h.1⟩

/-- Witness of C5: a module exporting `D3D11CreateDevice` whose bytes are the
Nexus URL. -/
theorem dependent_labels_need_prerequisite_witness :
    ∃ info : dllInfo WinVersion,
      parseDll (moduleWorld [goString "D3D11CreateDevice"] nexusApiUrl (.ok sampleVersion))
        samplePath = (some info, none)
      ∧ (info.isNexus = true → info.isD3D11Shim = true) :=
  ⟨_, parseDll_extracted _ samplePath ⟨⟨[]⟩⟩ (moduleFile [goString "D3D11CreateDevice"])
      nexusApiUrl rfl rfl rfl,
    (dependent_labels_need_prerequisite
      (moduleWorld [goString "D3D11CreateDevice"] nexusApiUrl (.ok sampleVersion)) samplePath _
      none (parseDll_extracted _ samplePath ⟨⟨[]⟩⟩ (moduleFile [goString "D3D11CreateDevice"])
        nexusApiUrl rfl rfl rfl)).2.2⟩

/-- C6: for every string of character codes below 128, `asciiToWideString`
returns a buffer of exactly `2 * len(s)` bytes whose byte `2i` is the code of
`s[i]` and whose byte `2i+1` is 0, with no terminator; `"e0"` becomes
`65 00 30 00` (hex), not `65 30`, and the empty string the empty buffer. -/
theorem asciiToWideString_utf16le (s : GoString) (hs : ∀ c ∈ s, c < 128) :
    (∃ b, asciiToWideString s = some b ∧ b.length = 2 * s.length
      ∧ ∀ i (h : i < s.length), b[2 * i]? = some s[i] ∧ b[2 * i + 1]? = some 0)
    ∧ goString "e0" = [0x65, 0x30]
    ∧ asciiToWideString (goString "e0") = some [0x65, 0x00, 0x30, 0x00]
    ∧ asciiToWideString (goString "e0") ≠ some [0x65, 0x30]
    ∧ asciiToWideString [] = some [] := by
  refine ⟨⟨_, asciiToWideString_ascii s hs, wide_length s, fun i h => wide_getElem s i h⟩,
    by decide, by decide, by decide, by decide⟩

/-- Witness of C6: the literal `"e0"`. -/
theorem asciiToWideString_utf16le_witness :
    (∀ c ∈ goString "e0", c < 128)
    ∧ ∃ b, asciiToWideString (goString "e0") = some b ∧ b.length = 2 * (goString "e0").length
      ∧ ∀ i (h : i < (goString "e0").length),
          b[2 * i]? = some (goString "e0")[i] ∧ b[2 * i + 1]? = some 0 :=
  ⟨by decide, (asciiToWideString_utf16le (goString "e0") (by decide)).1⟩

/-- C7: a module whose export list is exactly `D3D11CreateDevice` and whose
bytes contain none of the three marker patterns has `isD3D11Shim = true` and
the eight other labels false. -/
theorem only_d3d11_export {V : Type} [Inhabited V] (w : World V)
    (dllPath : GoString) (opened peFile : File) (fileBytes : List Nat)
    (hNew : w.New dllPath = .ok opened) (hParse : w.Parse opened = .ok peFile)
    (hRead : w.ReadFile dllPath = .ok fileBytes)
    (hNames : peFile.exportNames = [goString "D3D11CreateDevice"])
    (hNoDll : ¬ ∃ p q, fileBytes = p ++ addonLoaderDllUtf16 ++ q)
    (_hNoCore : ¬ ∃ p q, fileBytes = p ++ addonLoaderCoreDescriptionUtf16 ++ q)
    (hNoUrl : ¬ ∃ p q, fileBytes = p ++ goString "https://api.raidcore.gg" ++ q) :
    ∃ info, parseDll w dllPath = (some info, none)
      ∧ info.isD3D11Shim = true
      ∧ info.isAddonLoaderShim = false ∧ info.isAddonLoaderCore = false
      ∧ info.isNexus = false ∧ info.isDXGIShim = false ∧ info.isArc = false
      ∧ info.isArcAddon = false ∧ info.isAddonLoaderAddon = false
      ∧ info.isNexusAddon = false := by
  have hmem : ∀ name : GoString, exportLoop name peFile.Export.Functions = true
      ↔ name ∈ [goString "D3D11CreateDevice"] := by
    intro name
    rw [exportLoop_iff, ← hNames, File.exportNames]
  have hD : isD3D11Shim peFile = true := (hmem _).2 (by decide)
  have hX : isDXGIShim peFile = false := by
    rw [← Bool.not_eq_true, isDXGIShim, hmem]; decide
  have hc1 : Contains fileBytes addonLoaderDllUtf16 = false := by
    rw [← Bool.not_eq_true, Contains_iff]; exact hNoDll
  have hc3 : Contains fileBytes nexusApiUrl = false := by
    rw [← Bool.not_eq_true, Contains_iff]; exact hNoUrl
  refine ⟨_, parseDll_extracted w dllPath opened peFile fileBytes hNew hParse hRead,
    hD, ?_, ?_, ?_, hX, ?_, ?_, ?_, ?_⟩
  · simp [isAddonLoaderShim_eq, hc1]
  · simp [isAddonLoaderCore_eq, hX]
  · simp [isNexus_eq, hc3]
  · rw [← Bool.not_eq_true, isArc, hmem]; decide
  · rw [← Bool.not_eq_true, isArcAddon, hmem]; decide
  · rw [← Bool.not_eq_true, isAddonLoaderAddon, hmem]; decide
  · rw [← Bool.not_eq_true, isNexusAddon, hmem]; decide

/-- Witness of C7: the module exporting only `D3D11CreateDevice` with the three
bytes 1, 2, 3 as content. -/
theorem only_d3d11_export_witness :
    ∃ info : dllInfo WinVersion,
      parseDll (moduleWorld [goString "D3D11CreateDevice"] [1, 2, 3] (.ok sampleVersion))
        samplePath = (some info, none)
      ∧ info.isD3D11Shim = true
      ∧ info.isAddonLoaderShim = false ∧ info.isAddonLoaderCore = false
      ∧ info.isNexus = false ∧ info.isDXGIShim = false ∧ info.isArc = false
      ∧ info.isArcAddon = false ∧ info.isAddonLoaderAddon = false
      ∧ info.isNexusAddon = false :=
  only_d3d11_export
    (moduleWorld [goString "D3D11CreateDevice"] [1, 2, 3] (.ok sampleVersion))
    samplePath ⟨⟨[]⟩⟩ (moduleFile [goString "D3D11CreateDevice"]) [1, 2, 3] rfl rfl rfl rfl
    (fun h => absurd ((Contains_iff _ _).2 h) (by decide))
    (fun h => absurd ((Contains_iff _ _).2 h) (by decide))
    (fun h => absurd ((Contains_iff _ _).2 h) (by decide))

/-- C8: a module that exports `CreateDXGIFactory` but not `D3D11CreateDevice`
and whose bytes contain the wide form of "addonLoader.dll" has
`isAddonLoaderShim = true` and `isAddonLoaderCore = false`, whatever else the
bytes contain. -/
theorem dxgi_only_loader_shim {V : Type} [Inhabited V] (w : World V)
    (dllPath : GoString) (opened peFile : File) (fileBytes : List Nat)
    (hNew : w.New dllPath = .ok opened) (hParse : w.Parse opened = .ok peFile)
    (hRead : w.ReadFile dllPath = .ok fileBytes)
    (hDXGI : goString "CreateDXGIFactory" ∈ peFile.exportNames)
    (hNoD3D : goString "D3D11CreateDevice" ∉ peFile.exportNames)
    (hDll : ∃ p q, fileBytes = p ++ addonLoaderDllUtf16 ++ q) :
    ∃ info, parseDll w dllPath = (some info, none)
      ∧ info.isAddonLoaderShim = true ∧ info.isAddonLoaderCore = false := by
  have hX : isDXGIShim peFile = true := (isDXGIShim_iff peFile).2 hDXGI
  have hD : isD3D11Shim peFile = false := by
    rw [← Bool.not_eq_true, isD3D11Shim_iff]; exact hNoD3D
  have hc : Contains fileBytes addonLoaderDllUtf16 = true := (Contains_iff _ _).2 hDll
  refine ⟨_, parseDll_extracted w dllPath opened peFile fileBytes hNew hParse hRead, ?_, ?_⟩
  · simp [isAddonLoaderShim_eq, hX, hc]
  · simp [isAddonLoaderCore_eq, hD]

/-- Witness of C8: exports `CreateDXGIFactory` and `e0`; the bytes hold the wide
description string followed by the wide "addonLoader.dll". -/
theorem dxgi_only_loader_shim_witness :
    ∃ info : dllInfo WinVersion,
      parseDll (moduleWorld [goString "e0", goString "CreateDXGIFactory"]
        (addonLoaderCoreDescriptionUtf16 ++ addonLoaderDllUtf16) (.ok sampleVersion))
        samplePath = (some info, none)
      ∧ info.isAddonLoaderShim = true ∧ info.isAddonLoaderCore = false :=
  dxgi_only_loader_shim
    (moduleWorld [goString "e0", goString "CreateDXGIFactory"]
      (addonLoaderCoreDescriptionUtf16 ++ addonLoaderDllUtf16) (.ok sampleVersion))
    samplePath ⟨⟨[]⟩⟩ (moduleFile [goString "e0", goString "CreateDXGIFactory"])
    (addonLoaderCoreDescriptionUtf16 ++ addonLoaderDllUtf16) rfl rfl rfl
    (by decide) (by decide) ⟨addonLoaderCoreDescriptionUtf16, [], by simp⟩

/-- C9, as the code has it: for a module with an empty export list and bytes
containing none of the three marker patterns, `parseDll` returns a record and a
nil error; all nine labels are false; `fileVersion` is the version
`GetFileVersion` returned when there is one, and the zero value of `WinVersion`
(0.0.0.0 for four numeric components) when there is none. -/
theorem empty_module_all_false {V : Type} [Inhabited V] (w : World V)
    (dllPath : GoString) (opened peFile : File) (fileBytes : List Nat)
    (hNew : w.New dllPath = .ok opened) (hParse : w.Parse opened = .ok peFile)
    (hRead : w.ReadFile dllPath = .ok fileBytes)
    (hNames : peFile.exportNames = [])
    (_hNoDll : ¬ ∃ p q, fileBytes = p ++ addonLoaderDllUtf16 ++ q)
    (_hNoCore : ¬ ∃ p q, fileBytes = p ++ addonLoaderCoreDescriptionUtf16 ++ q)
    (_hNoUrl : ¬ ∃ p q, fileBytes = p ++ goString "https://api.raidcore.gg" ++ q) :
    ∃ info, parseDll w dllPath = (some info, none)
      ∧ info.isArc = false ∧ info.isArcAddon = false ∧ info.isAddonLoaderShim = false
      ∧ info.isAddonLoaderCore = false ∧ info.isAddonLoaderAddon = false
      ∧ info.isNexus = false ∧ info.isNexusAddon = false ∧ info.isD3D11Shim = false
      ∧ info.isDXGIShim = false
      ∧ (∀ winVersion, w.GetFileVersion dllPath = .ok winVersion →
          info.fileVersion = winVersion)
      ∧ (∀ e, w.GetFileVersion dllPath = .error e → info.fileVersion = default)
      ∧ (default : WinVersion) = ⟨0, 0, 0, 0⟩ := by
  have hfns : peFile.Export.Functions = [] := by
    simpa [File.exportNames] using hNames
  have hloop : ∀ name : GoString, exportLoop name peFile.Export.Functions = false := by
    intro name
    rw [hfns]
    rfl
  have hD : isD3D11Shim peFile = false := hloop _
  have hX : isDXGIShim peFile = false := hloop _
  refine ⟨_, parseDll_extracted w dllPath opened peFile fileBytes hNew hParse hRead,
    hloop _, hloop _, ?_, ?_, hloop _, ?_, hloop _, hD, hX, ?_, ?_, rfl⟩
  · simp [isAddonLoaderShim_eq, hD, hX]
  · simp [isAddonLoaderCore_eq, hD]
  · simp [isNexus_eq, hD]
  · intro winVersion hv
    simp only [hv, storedVersion]
  · intro e hv
    simp only [hv, storedVersion]

/-- Witness of C9 as amended: the module with no exports and no bytes, whose
version cannot be read; the record holds the zero version. -/
theorem empty_module_all_false_witness :
    ∃ info : dllInfo WinVersion,
      parseDll (moduleWorld [] [] (.error (GoError.base (goString "no version info"))))
        samplePath = (some info, none)
      ∧ info.isArc = false ∧ info.isArcAddon = false ∧ info.isAddonLoaderShim = false
      ∧ info.isAddonLoaderCore = false ∧ info.isAddonLoaderAddon = false
      ∧ info.isNexus = false ∧ info.isNexusAddon = false ∧ info.isD3D11Shim = false
      ∧ info.isDXGIShim = false ∧ info.fileVersion = ⟨0, 0, 0, 0⟩ := by
  obtain ⟨info, h, h1, h2, h3, h4, h5, h6, h7, h8, h9, _, hv, _⟩ := empty_module_all_false
    (moduleWorld [] [] (.error (GoError.base (goString "no version info"))) : World WinVersion)
    samplePath ⟨⟨[]⟩⟩ (moduleFile []) [] rfl rfl rfl rfl
    (fun h => absurd ((Contains_iff _ _).2 h) (by decide))
    (fun h => absurd ((Contains_iff _ _).2 h) (by decide))
    (fun h => absurd ((Contains_iff _ _).2 h) (by decide))
  exact ⟨info, h, h1, h2, h3, h4, h5, h6, h7, h8, h9, hv _ rfl⟩

/-- Counterexample to C9 as stated: the module with no exports and the bytes
1, 2, 3, once with no readable version and once with the present version
0.0.0.0. Different versions are passed in, absent and present, and the record
is the same, so its `fileVersion` does not equal the version passed in in the
absent case. -/
theorem empty_module_absent_version_stored_as_zero :
    (Except.error (GoError.base (goString "no version info"))
        : Except GoError WinVersion).toOption = none
    ∧ (Except.ok ⟨0, 0, 0, 0⟩ : Except GoError WinVersion).toOption = some ⟨0, 0, 0, 0⟩
    ∧ ∃ info : dllInfo WinVersion,
      parseDll (moduleWorld [] [1, 2, 3] (.error (GoError.base (goString "no version info"))))
        (goString "empty.dll") = (some info, none)
      ∧ parseDll (moduleWorld [] [1, 2, 3] (.ok (⟨0, 0, 0, 0⟩ : WinVersion)))
        (goString "empty.dll") = (some info, none)
      ∧ info.isArc = false ∧ info.isArcAddon = false ∧ info.isAddonLoaderShim = false
      ∧ info.isAddonLoaderCore = false ∧ info.isAddonLoaderAddon = false
      ∧ info.isNexus = false ∧ info.isNexusAddon = false ∧ info.isD3D11Shim = false
      ∧ info.isDXGIShim = false
      ∧ info.fileVersion = ⟨0, 0, 0, 0⟩ :=
  ⟨rfl, rfl, _,
    parseDll_extracted
      (moduleWorld [] [1, 2, 3] (.error (GoError.base (goString "no version info"))))
      (goString "empty.dll") ⟨⟨[]⟩⟩ (moduleFile []) [1, 2, 3] rfl rfl rfl,
    parseDll_extracted (moduleWorld [] [1, 2, 3] (.ok (⟨0, 0, 0, 0⟩ : WinVersion)))
      (goString "empty.dll") ⟨⟨[]⟩⟩ (moduleFile []) [1, 2, 3] rfl rfl rfl,
    by decide⟩

/-- C10: `parseDll` returns a nil record with an error exactly when
`peparser.New` fails, or it succeeds and `Parse` fails, or both succeed and
`os.ReadFile` fails; every result is either that or a record with a nil error,
and once the three steps succeed a record is returned whatever
`GetFileVersion` and the label predicates do. -/
theorem parseDll_error_iff {V : Type} [Inhabited V] (w : World V) (dllPath : GoString) :
    ((∃ err, parseDll w dllPath = (none, some err)) ↔
      ((∃ e, w.New dllPath = .error e)
        ∨ (∃ opened e, w.New dllPath = .ok opened ∧ w.Parse opened = .error e)
        ∨ (∃ opened peFile e, w.New dllPath = .ok opened ∧ w.Parse opened = .ok peFile
            ∧ w.ReadFile dllPath = .error e)))
    ∧ ((∃ err, parseDll w dllPath = (none, some err))
        ∨ (∃ info, parseDll w dllPath = (some info, none)))
    ∧ (∀ opened peFile fileBytes, w.New dllPath = .ok opened →
        w.Parse opened = .ok peFile → w.ReadFile dllPath = .ok fileBytes →
        ∃ info, parseDll w dllPath = (some info, none)) := by
  have hok : ∀ opened peFile fileBytes, w.New dllPath = .ok opened →
      w.Parse opened = .ok peFile → w.ReadFile dllPath = .ok fileBytes →
      ∃ info, parseDll w dllPath = (some info, none) :=
    fun opened peFile fileBytes hNew hParse hRead =>
      ⟨_, parseDll_extracted w dllPath opened peFile fileBytes hNew hParse hRead⟩
  refine ⟨?_, ?_, hok⟩
  · constructor
    · rintro ⟨err, herr⟩
      cases hNew : w.New dllPath with
      | error e => exact Or.inl ⟨e, rfl⟩
      | ok opened =>
        cases hParse : w.Parse opened with
        | error e => exact Or.inr (Or.inl ⟨opened, e, rfl, hParse⟩)
        | ok peFile =>
          cases hRead : w.ReadFile dllPath with
          | error e => exact Or.inr (Or.inr ⟨opened, peFile, e, rfl, hParse, rfl⟩)
          | ok fileBytes =>
            obtain ⟨info, hinfo⟩ := hok opened peFile fileBytes hNew hParse hRead
            rw [hinfo] at herr
            simp at herr
    · rintro (⟨e, hNew⟩ | ⟨opened, e, hNew, hParse⟩ | ⟨opened, peFile, e, hNew, hParse, hRead⟩)
      · exact ⟨_, parseDll_open_failed w dllPath e hNew⟩
      · exact ⟨_, parseDll_parse_failed w dllPath opened e hNew hParse⟩
      · exact ⟨_, parseDll_read_failed w dllPath opened peFile e hNew hParse hRead⟩
  · cases hNew : w.New dllPath with
    | error e => exact Or.inl ⟨_, parseDll_open_failed w dllPath e hNew⟩
    | ok opened =>
      cases hParse : w.Parse opened with
      | error e => exact Or.inl ⟨_, parseDll_parse_failed w dllPath opened e hNew hParse⟩
      | ok peFile =>
        cases hRead : w.ReadFile dllPath with
        | error e =>
          exact Or.inl ⟨_, parseDll_read_failed w dllPath opened peFile e hNew hParse hRead⟩
        | ok fileBytes => exact Or.inr (hok opened peFile fileBytes hNew hParse hRead)

/-- Witness of C10: a file that opens as a PE image but does not parse gives a
nil record and an error; a module whose version cannot be read still gives a
record. -/
theorem parseDll_error_iff_witness :
    (∃ err, parseDll
        ({ New := fun _ => .ok ⟨⟨[]⟩⟩
           Parse := fun _ => .error (GoError.base (goString "DOS header magic not found"))
           ReadFile := fun _ => .ok [1, 2, 3]
           GetFileVersion := fun _ => .ok sampleVersion } : World WinVersion)
        samplePath = (none, some err))
    ∧ (∃ info : dllInfo WinVersion,
        parseDll (moduleWorld [] [1, 2, 3] (.error (GoError.base (goString "no version info"))))
          samplePath = (some info, none)) :=
  ⟨(parseDll_error_iff
      ({ New := fun _ => .ok ⟨⟨[]⟩⟩
         Parse := fun _ => .error (GoError.base (goString "DOS header magic not found"))
         ReadFile := fun _ => .ok [1, 2, 3]
         GetFileVersion := fun _ => .ok sampleVersion } : World WinVersion) samplePath).1.2
      (Or.inr (Or.inl ⟨⟨⟨[]⟩⟩, GoError.base (goString "DOS header magic not found"), rfl, rfl⟩)),
    (parseDll_error_iff
      (moduleWorld [] [1, 2, 3] (.error (GoError.base (goString "no version info"))))
      samplePath).2.2 ⟨⟨[]⟩⟩ (moduleFile []) [1, 2, 3] rfl rfl rfl⟩

/-! ## Facts shared by the later claims -/

theorem exportLoop_congr (name : GoString) (fns fns2 : List ExportFunction)
    (h : name ∈ fns.map (fun e => e.Name) ↔ name ∈ fns2.map (fun e => e.Name)) :
    exportLoop name fns = exportLoop name fns2 := by
  rw [Bool.eq_iff_iff, exportLoop_iff, exportLoop_iff]
  exact h

theorem exportLoop_mono (name : GoString) (fns fns2 : List ExportFunction)
    (h : name ∈ fns.map (fun e => e.Name) → name ∈ fns2.map (fun e => e.Name))
    (ht : exportLoop name fns = true) : exportLoop name fns2 = true :=
  (exportLoop_iff _ _).2 (h ((exportLoop_iff _ _).1 ht))

theorem Contains_mono (b pat pre suf : List Nat) (h : Contains b pat = true) :
    Contains (pre ++ b ++ suf) pat = true := by
  obtain ⟨p, q, hpq⟩ := (Contains_iff _ _).1 h
  exact (Contains_iff _ _).2 ⟨pre ++ p, q ++ suf, by simp [hpq]⟩

theorem storedVersion_eq_of_toOption {V : Type} [Inhabited V] (r r2 : Except GoError V)
    (h : r.toOption = r2.toOption) : storedVersion r = storedVersion r2 := by
  cases r <;> cases r2 <;> simp_all [Except.toOption, storedVersion]

/-! ## Claims, continued -/

/-- C11, as the code has it: when `GetFileVersion` succeeds with `v` the record
holds `v`; when it fails `parseDll` still returns a record, whose `fileVersion`
is the zero value of `WinVersion` (0.0.0.0 for four numeric components); that
value differs from every present version other than the zero value. -/
theorem fileVersion_copied_or_zero {V : Type} [Inhabited V] (w : World V)
    (dllPath : GoString) (opened peFile : File) (fileBytes : List Nat)
    (hNew : w.New dllPath = .ok opened) (hParse : w.Parse opened = .ok peFile)
    (hRead : w.ReadFile dllPath = .ok fileBytes) :
    (default : WinVersion) = ⟨0, 0, 0, 0⟩
    ∧ ∃ info, parseDll w dllPath = (some info, none)
      ∧ (∀ v, w.GetFileVersion dllPath = .ok v → info.fileVersion = v)
      ∧ (∀ e, w.GetFileVersion dllPath = .error e → info.fileVersion = default)
      ∧ (∀ e v, w.GetFileVersion dllPath = .error e → v ≠ default →
          info.fileVersion ≠ v) := by
  refine ⟨rfl, _, parseDll_extracted w dllPath opened peFile fileBytes hNew hParse hRead,
    ?_, ?_, ?_⟩
  · intro v hv
    simp only [hv, storedVersion]
  · intro e hv
    simp only [hv, storedVersion]
  · intro e v hv hne
    simp only [hv, storedVersion]
    exact fun h => hne h.symm

/-- Witness of C11 as amended: a module whose version cannot be read; the
record holds 0.0.0.0, which differs from 1.2.3.4. -/
theorem fileVersion_copied_or_zero_witness :
    ∃ info : dllInfo WinVersion,
      parseDll (moduleWorld [] [] (.error (GoError.base (goString "no version info"))))
        samplePath = (some info, none)
      ∧ info.fileVersion = ⟨0, 0, 0, 0⟩ ∧ info.fileVersion ≠ sampleVersion := by
  obtain ⟨_, info, h, _, hzero, hne⟩ := fileVersion_copied_or_zero
    (moduleWorld [] [] (.error (GoError.base (goString "no version info"))) : World WinVersion)
    samplePath ⟨⟨[]⟩⟩ (moduleFile []) [] rfl rfl rfl
  exact ⟨info, h, hzero _ rfl, hne _ sampleVersion rfl (by decide)⟩

/-- Counterexample to C11 as stated: the record of a module whose version
cannot be read is the same record as that of the same module with the present
version 0.0.0.0, so the absent value is not distinguishable from it. -/
theorem absent_version_equals_zero_version :
    ∃ info : dllInfo WinVersion,
      parseDll (moduleWorld [] [] (.error (GoError.base (goString "no version info"))))
        samplePath = (some info, none)
      ∧ parseDll (moduleWorld [] [] (.ok (⟨0, 0, 0, 0⟩ : WinVersion))) samplePath
        = (some info, none)
      ∧ info.fileVersion = ⟨0, 0, 0, 0⟩ :=
  ⟨_, parseDll_extracted
      (moduleWorld [] [] (.error (GoError.base (goString "no version info"))))
      samplePath ⟨⟨[]⟩⟩ (moduleFile []) [] rfl rfl rfl,
    parseDll_extracted (moduleWorld [] [] (.ok (⟨0, 0, 0, 0⟩ : WinVersion)))
      samplePath ⟨⟨[]⟩⟩ (moduleFile []) [] rfl rfl rfl,
    rfl⟩

/-- C12: two extractions, in any two worlds and under any two paths, that give
the same export-name list, the same raw bytes and the same optional version
produce the same record: all nine labels and `fileVersion` are equal. -/
theorem parseDll_deterministic {V : Type} [Inhabited V] (w w2 : World V)
    (dllPath dllPath2 : GoString) (opened peFile opened2 peFile2 : File)
    (fileBytes : List Nat)
    (hNew : w.New dllPath = .ok opened) (hParse : w.Parse opened = .ok peFile)
    (hRead : w.ReadFile dllPath = .ok fileBytes)
    (hNew2 : w2.New dllPath2 = .ok opened2) (hParse2 : w2.Parse opened2 = .ok peFile2)
    (hRead2 : w2.ReadFile dllPath2 = .ok fileBytes)
    (hNames : peFile.exportNames = peFile2.exportNames)
    (hVersion : (w.GetFileVersion dllPath).toOption = (w2.GetFileVersion dllPath2).toOption) :
    ∃ info info2, parseDll w dllPath = (some info, none)
      ∧ parseDll w2 dllPath2 = (some info2, none)
      ∧ info.isArc = info2.isArc ∧ info.isArcAddon = info2.isArcAddon
      ∧ info.isAddonLoaderShim = info2.isAddonLoaderShim
      ∧ info.isAddonLoaderCore = info2.isAddonLoaderCore
      ∧ info.isAddonLoaderAddon = info2.isAddonLoaderAddon
      ∧ info.isNexus = info2.isNexus ∧ info.isNexusAddon = info2.isNexusAddon
      ∧ info.isD3D11Shim = info2.isD3D11Shim ∧ info.isDXGIShim = info2.isDXGIShim
      ∧ info.fileVersion = info2.fileVersion
      ∧ info = info2 := by
  have hloop : ∀ name, exportLoop name peFile.Export.Functions
      = exportLoop name peFile2.Export.Functions := by
    intro name
    apply exportLoop_congr
    have h := hNames
    simp only [File.exportNames] at h
    rw [h]
  have hD : isD3D11Shim peFile = isD3D11Shim peFile2 := hloop _
  have hX : isDXGIShim peFile = isDXGIShim peFile2 := hloop _
  have h1 : isArc peFile = isArc peFile2 := hloop _
  have h2 : isArcAddon peFile = isArcAddon peFile2 := hloop _
  have h3 : isAddonLoaderAddon peFile = isAddonLoaderAddon peFile2 := hloop _
  have h4 : isNexusAddon peFile = isNexusAddon peFile2 := hloop _
  have h5 : isAddonLoaderShim peFile fileBytes = isAddonLoaderShim peFile2 fileBytes := by
    rw [isAddonLoaderShim_eq, isAddonLoaderShim_eq, hD, hX]
  have h6 : isAddonLoaderCore peFile fileBytes = isAddonLoaderCore peFile2 fileBytes := by
    rw [isAddonLoaderCore_eq, isAddonLoaderCore_eq, hD, hX]
  have h7 : isNexus peFile fileBytes = isNexus peFile2 fileBytes := by
    rw [isNexus_eq, isNexus_eq, hD]
  have h8 := storedVersion_eq_of_toOption _ _ hVersion
  refine ⟨_, _, parseDll_extracted w dllPath opened peFile fileBytes hNew hParse hRead,
    parseDll_extracted w2 dllPath2 opened2 peFile2 fileBytes hNew2 hParse2 hRead2,
    h1, h2, h5, h6, h3, h7, h4, hD, hX, h8, ?_⟩
  rw [h1, h2, h5, h6, h3, h7, h4, hD, hX, h8]

/-- Witness of C12: the same module under two paths, its version unreadable for
two different reasons. -/
theorem parseDll_deterministic_witness :
    ∃ info : dllInfo WinVersion,
      parseDll (moduleWorld [goString "e0"] [1, 2, 3] (.error (GoError.base (goString "a"))))
        samplePath = (some info, none)
      ∧ parseDll (moduleWorld [goString "e0"] [1, 2, 3] (.error (GoError.base (goString "b"))))
        (goString "arcdps.dll") = (some info, none) := by
  obtain ⟨info, info2, h1, h2, hrest⟩ := parseDll_deterministic
    (moduleWorld [goString "e0"] [1, 2, 3] (.error (GoError.base (goString "a")))
      : World WinVersion)
    (moduleWorld [goString "e0"] [1, 2, 3] (.error (GoError.base (goString "b"))))
    samplePath (goString "arcdps.dll") ⟨⟨[]⟩⟩ (moduleFile [goString "e0"]) ⟨⟨[]⟩⟩
    (moduleFile [goString "e0"]) [1, 2, 3] rfl rfl rfl rfl rfl rfl rfl rfl
  have heq : info = info2 := hrest.2.2.2.2.2.2.2.2.2.2
  exact ⟨info, h1, heq ▸ h2⟩

/-! ## The loop of `main` -/

theorem mainLoop_cons_failed {V : Type} [Inhabited V] (w : World V) (dllPath : GoString)
    (rest : List GoString) (logged : List (LogCall V)) (r : Option (dllInfo V))
    (err : GoError) (h : parseDll w dllPath = (r, some err)) :
    mainLoop w (dllPath :: rest) logged
      = mainLoop w rest
          (logged ++ [LogCall.Errorw (goString "Failed to parse DLL") dllPath err]) := by
  rw [mainLoop, h]

theorem mainLoop_cons_parsed {V : Type} [Inhabited V] (w : World V) (dllPath : GoString)
    (rest : List GoString) (logged : List (LogCall V)) (r : Option (dllInfo V))
    (h : parseDll w dllPath = (r, none)) :
    mainLoop w (dllPath :: rest) logged
      = mainLoop w rest (logged ++ [LogCall.Infow (goString "Parsed DLL") dllPath r]) := by
  rw [mainLoop, h]

theorem mainLoop_logged {V : Type} [Inhabited V] (w : World V) (dllPaths : List GoString)
    (logged : List (LogCall V)) :
    mainLoop w dllPaths logged = logged ++ mainLoop w dllPaths [] := by
  induction dllPaths generalizing logged with
  | nil => simp [mainLoop]
  | cons p rest ih =>
    rcases h : parseDll w p with ⟨r, _ | err⟩
    · rw [mainLoop_cons_parsed w p rest logged r h, mainLoop_cons_parsed w p rest [] r h,
        ih, ih ([] ++ _)]
      simp
    · rw [mainLoop_cons_failed w p rest logged r err h,
        mainLoop_cons_failed w p rest [] r err h, ih, ih ([] ++ _)]
      simp

theorem mainLoop_append {V : Type} [Inhabited V] (w : World V) (pre post : List GoString)
    (logged : List (LogCall V)) :
    mainLoop w (pre ++ post) logged = mainLoop w pre logged ++ mainLoop w post [] := by
  induction pre generalizing logged with
  | nil => simpa [mainLoop] using mainLoop_logged w post logged
  | cons p rest ih =>
    rcases h : parseDll w p with ⟨r, _ | err⟩
    · rw [List.cons_append, mainLoop_cons_parsed w p (rest ++ post) logged r h,
        mainLoop_cons_parsed w p rest logged r h, ih]
    · rw [List.cons_append, mainLoop_cons_failed w p (rest ++ post) logged r err h,
        mainLoop_cons_failed w p rest logged r err h, ih]

theorem mainLoop_length {V : Type} [Inhabited V] (w : World V) (dllPaths : List GoString)
    (logged : List (LogCall V)) :
    (mainLoop w dllPaths logged).length = logged.length + dllPaths.length := by
  induction dllPaths generalizing logged with
  | nil => simp [mainLoop]
  | cons p rest ih =>
    rcases h : parseDll w p with ⟨r, _ | err⟩
    · rw [mainLoop_cons_parsed w p rest logged r h, ih]
      simp; omega
    · rw [mainLoop_cons_failed w p rest logged r err h, ih]
      simp; omega

theorem mainLoop_split {V : Type} [Inhabited V] (w : World V) (pre post : List GoString)
    (p : GoString) (logged : List (LogCall V)) :
    mainLoop w (pre ++ p :: post) logged
      = mainLoop w pre logged ++ (mainLoop w [p] [] ++ mainLoop w post []) := by
  have h : pre ++ p :: post = pre ++ ([p] ++ post) := by simp
  rw [h, mainLoop_append, mainLoop_append]

theorem getElem?_middle {α : Type} (a : List α) (x : α) (b : List α) (n : Nat)
    (h : n = a.length) : (a ++ x :: b)[n]? = some x := by
  subst h
  rw [List.getElem?_append_right (Nat.le_refl _), Nat.sub_self]
  simp

/-- C13: the loop of `main` adds exactly one logger call per path, in list
order: `Errorw` with the path and the error when `parseDll` returns an error,
`Infow` with the path and the record when it returns a record. A path that
fails does not stop the loop: the calls made for the paths after it are those
made when the failing path is left out of the list. -/
theorem mainLoop_one_outcome_per_path {V : Type} [Inhabited V] (w : World V)
    (dllPaths : List GoString) (logged : List (LogCall V)) :
    (mainLoop w dllPaths logged).length = logged.length + dllPaths.length
    ∧ (∀ i, i < logged.length → (mainLoop w dllPaths logged)[i]? = logged[i]?)
    ∧ (∀ (i : Nat) (h : i < dllPaths.length),
        (∀ r err, parseDll w dllPaths[i] = (r, some err) →
          (mainLoop w dllPaths logged)[logged.length + i]?
            = some (LogCall.Errorw (goString "Failed to parse DLL") dllPaths[i] err))
        ∧ (∀ info, parseDll w dllPaths[i] = (some info, none) →
          (mainLoop w dllPaths logged)[logged.length + i]?
            = some (LogCall.Infow (goString "Parsed DLL") dllPaths[i] (some info))))
    ∧ (∀ pre bad post r err, dllPaths = pre ++ bad :: post →
        parseDll w bad = (r, some err) →
        mainLoop w dllPaths logged
            = mainLoop w pre logged
              ++ LogCall.Errorw (goString "Failed to parse DLL") bad err :: mainLoop w post []
          ∧ mainLoop w (pre ++ post) logged = mainLoop w pre logged ++ mainLoop w post []) := by
  refine ⟨mainLoop_length w dllPaths logged, ?_, ?_, ?_⟩
  · intro i hi
    rw [mainLoop_logged, List.getElem?_append_left hi]
  · intro i hi
    have hsplit : dllPaths = dllPaths.take i ++ dllPaths[i] :: dllPaths.drop (i + 1) := by
      rw [← List.drop_eq_getElem_cons hi, List.take_append_drop]
    have hlen : (mainLoop w (dllPaths.take i) logged).length = logged.length + i := by
      rw [mainLoop_length, List.length_take, Nat.min_eq_left (Nat.le_of_lt hi)]
    constructor
    · intro r err hp
      have h1 : mainLoop w dllPaths logged
          = mainLoop w (dllPaths.take i) logged
            ++ (mainLoop w [dllPaths[i]] [] ++ mainLoop w (dllPaths.drop (i + 1)) []) := by
        conv_lhs => rw [hsplit]
        exact mainLoop_split w _ _ _ logged
      rw [h1, mainLoop_cons_failed w dllPaths[i] [] [] r err hp]
      exact getElem?_middle _ _ _ _ hlen.symm
    · intro info hp
      have h1 : mainLoop w dllPaths logged
          = mainLoop w (dllPaths.take i) logged
            ++ (mainLoop w [dllPaths[i]] [] ++ mainLoop w (dllPaths.drop (i + 1)) []) := by
        conv_lhs => rw [hsplit]
        exact mainLoop_split w _ _ _ logged
      rw [h1, mainLoop_cons_parsed w dllPaths[i] [] [] (some info) hp]
      exact getElem?_middle _ _ _ _ hlen.symm
  · intro pre bad post r err hsplit hp
    subst hsplit
    refine ⟨?_, mainLoop_append w pre post logged⟩
    rw [mainLoop_split, mainLoop_cons_failed w bad [] [] r err hp]
    rfl

/-- Witness of C13: `broken.dll` cannot be opened, `d3d11.dll` after it is
still parsed and reported. -/
theorem mainLoop_one_outcome_per_path_witness :
    ∃ err info,
      mainLoop brokenFirstWorld [goString "broken.dll", samplePath] []
        = [LogCall.Errorw (goString "Failed to parse DLL") (goString "broken.dll") err,
            LogCall.Infow (goString "Parsed DLL") samplePath (some info)]
      ∧ mainLoop brokenFirstWorld [samplePath] []
        = [LogCall.Infow (goString "Parsed DLL") samplePath (some info)] := by
  have hbad := parseDll_open_failed brokenFirstWorld (goString "broken.dll")
    (GoError.base (goString "not a PE file")) rfl
  obtain ⟨info, hgood⟩ : ∃ info, parseDll brokenFirstWorld samplePath = (some info, none) :=
    ⟨_, parseDll_extracted brokenFirstWorld samplePath ⟨⟨[]⟩⟩
      (moduleFile [goString "e0"]) [1, 2, 3] rfl rfl rfl⟩
  have hpost : mainLoop brokenFirstWorld [samplePath] []
      = [LogCall.Infow (goString "Parsed DLL") samplePath (some info)] := by
    rw [mainLoop_cons_parsed brokenFirstWorld samplePath [] [] _ hgood]
    rfl
  have h := ((mainLoop_one_outcome_per_path brokenFirstWorld
    [goString "broken.dll", samplePath] []).2.2.2
      [] (goString "broken.dll") [samplePath] _ _ rfl hbad).1
  refine ⟨Wrapf (GoError.base (goString "not a PE file")) "failed to open PE file "
    (goString "broken.dll"), info, ?_, hpost⟩
  rw [h, hpost]
  rfl

/-! ## Refinement of the two-phase evaluation -/

theorem exportLoop_eq_specHasExport (name : GoString) (peFile : File) :
    exportLoop name peFile.Export.Functions = specHasExport peFile.exportNames name := by
  rw [Bool.eq_iff_iff, exportLoop_iff, specHasExport, decide_eq_true_iff, File.exportNames]

theorem Contains_eq_specContains (b pat : List Nat) : Contains b pat = specContains b pat := by
  rw [Bool.eq_iff_iff, Contains_iff, specContains, decide_eq_true_iff]
  constructor
  · rintro ⟨p, q, h⟩
    exact ⟨p, q, h.symm⟩
  · rintro ⟨p, q, h⟩
    exact ⟨p, q, h.symm⟩

theorem addonLoaderDllUtf16_eq_spec :
    addonLoaderDllUtf16 = specUtf16le (goString "addonLoader.dll") := by
  decide

theorem addonLoaderCoreDescriptionUtf16_eq_spec :
    addonLoaderCoreDescriptionUtf16 = specUtf16le (goString "core addon loading library") := by
  decide

/-- C14: the record `parseDll` builds, where each dependent predicate scans the
export list again, is the record of the two-phase evaluation of the
specification, which computes the six base labels first and the three
dependent labels from the stored base labels and the raw bytes. -/
theorem parseDll_refines_two_phase {V : Type} [Inhabited V] (w : World V)
    (dllPath : GoString) (opened peFile : File) (fileBytes : List Nat)
    (hNew : w.New dllPath = .ok opened) (hParse : w.Parse opened = .ok peFile)
    (hRead : w.ReadFile dllPath = .ok fileBytes) :
    parseDll w dllPath
      = (some (specTwoPhase peFile.exportNames fileBytes
          (storedVersion (w.GetFileVersion dllPath))), none) := by
  rw [parseDll_extracted w dllPath opened peFile fileBytes hNew hParse hRead]
  simp only [specTwoPhase, specDependentPhase, specBasePhase, isAddonLoaderShim_eq,
    isAddonLoaderCore_eq, isNexus_eq, Contains_eq_specContains, addonLoaderDllUtf16_eq_spec,
    addonLoaderCoreDescriptionUtf16_eq_spec, nexusApiUrl, isArc, isArcAddon,
    isAddonLoaderAddon, isNexusAddon, isD3D11Shim, isDXGIShim, exportLoop_eq_specHasExport]

/-- Witness of C14: the module that exports all six marker names and holds all
three patterns. -/
theorem parseDll_refines_two_phase_witness :
    parseDll fullWorld samplePath
      = (some (specTwoPhase
          [goString "D3D11CreateDevice", goString "CreateDXGIFactory", goString "e0",
            goString "get_init_addr", goString "gw2addon_load", goString "GetAddonDef"]
          (addonLoaderDllUtf16 ++ addonLoaderCoreDescriptionUtf16 ++ nexusApiUrl)
          sampleVersion), none) :=
  parseDll_refines_two_phase fullWorld samplePath ⟨⟨[]⟩⟩
    (moduleFile [goString "D3D11CreateDevice", goString "CreateDXGIFactory", goString "e0",
      goString "get_init_addr", goString "gw2addon_load", goString "GetAddonDef"])
    (addonLoaderDllUtf16 ++ addonLoaderCoreDescriptionUtf16 ++ nexusApiUrl) rfl rfl rfl

/-! ## `getDllPaths` -/

theorem TrimPrefix_append (pre rel : GoString) : TrimPrefix (pre ++ rel) pre = rel := by
  have h : startsWith (pre ++ rel) pre = true := (startsWith_iff _ _).2 ⟨rel, rfl⟩
  simp [TrimPrefix, h]

theorem getDllPaths_loop (os : GoOS) (workDir : GoString) (visits : List WalkVisit)
    (hNoErr : ∀ v ∈ visits, v.err = none) (dllPaths : List GoString) :
    visits.foldlM
      (fun dllPaths visit =>
        if visit.err.isSome then none
        else if visit.IsDir then some dllPaths
        else if Ext os visit.path = goString ".dll" then
          some (dllPaths ++ [TrimPrefix visit.path (workDir ++ [os.PathSeparator])])
        else some dllPaths)
      dllPaths
    = some (dllPaths ++
        (visits.filter (fun v => !v.IsDir && decide (Ext os v.path = goString ".dll"))).map
          (fun v => TrimPrefix v.path (workDir ++ [os.PathSeparator]))) := by
  induction visits generalizing dllPaths with
  | nil => simp
  | cons v rest ih =>
    have hv : v.err = none := hNoErr v (List.mem_cons_self _ _)
    have hrest : ∀ u ∈ rest, u.err = none := fun u hu => hNoErr u (List.mem_cons_of_mem _ hu)
    rw [List.foldlM_cons]
    by_cases hd : v.IsDir = true
    · simp only [hv, Option.isSome_none, Bool.false_eq_true, if_false, hd, if_true,
        Option.some_bind, Option.bind_eq_bind]
      rw [ih hrest]
      simp [List.filter_cons, hd]
    · by_cases he : Ext os v.path = goString ".dll"
      · simp only [hv, Option.isSome_none, Bool.false_eq_true, if_false, hd, he, if_true,
          Option.some_bind, Option.bind_eq_bind]
        rw [ih hrest]
        simp [List.filter_cons, hd, he]
      · simp only [hv, Option.isSome_none, Bool.false_eq_true, if_false, hd, he,
          Option.some_bind, Option.bind_eq_bind]
        rw [ih hrest]
        simp [List.filter_cons, hd, he]

/-- C15, as the code has it: when the walk reports no error, `getDllPaths`
returns, in walk order, one entry for each visited non-directory whose
`filepath.Ext` is exactly the bytes `.dll` (case-sensitive) and no entry for
anything else. The entry is `strings.TrimPrefix` of the path by `workDir`
followed by the separator: for a path that is `workDir`, the separator and a
remainder, the entry is the remainder, so when the selected paths are
`workDir`, separator, `rel` for the members `rel` of a list, the result is that
list. `d3d11.dll` has the extension `.dll`, `D3D11.DLL` has `.DLL`. -/
theorem getDllPaths_exact_extension (os : GoOS) (Walk : GoString → List WalkVisit)
    (workDir : GoString) (hNoErr : ∀ v ∈ Walk workDir, v.err = none) :
    getDllPaths os Walk workDir
      = some (((Walk workDir).filter
            (fun v => !v.IsDir && decide (Ext os v.path = goString ".dll"))).map
          (fun v => TrimPrefix v.path (workDir ++ [os.PathSeparator])))
    ∧ (∀ rel, TrimPrefix (workDir ++ [os.PathSeparator] ++ rel)
        (workDir ++ [os.PathSeparator]) = rel)
    ∧ (∀ rels : List GoString,
        ((Walk workDir).filter
            (fun v => !v.IsDir && decide (Ext os v.path = goString ".dll"))).map
          (fun v => v.path)
          = rels.map (fun rel => workDir ++ [os.PathSeparator] ++ rel) →
        getDllPaths os Walk workDir = some rels)
    ∧ Ext GoOS.windows (winPath ["C:", "Game", "d3d11.dll"]) = goString ".dll"
    ∧ Ext GoOS.windows (winPath ["C:", "Game", "D3D11.DLL"]) = goString ".DLL"
    ∧ goString ".DLL" ≠ goString ".dll" := by
  have hres : getDllPaths os Walk workDir
      = some (((Walk workDir).filter
            (fun v => !v.IsDir && decide (Ext os v.path = goString ".dll"))).map
          (fun v => TrimPrefix v.path (workDir ++ [os.PathSeparator]))) := by
    have h := getDllPaths_loop os workDir (Walk workDir) hNoErr []
    simpa [getDllPaths] using h
  refine ⟨hres, fun rel => TrimPrefix_append _ rel, ?_, by decide, by decide, by decide⟩
  intro rels hrels
  have hmap : ((Walk workDir).filter
        (fun v => !v.IsDir && decide (Ext os v.path = goString ".dll"))).map
      (fun v => TrimPrefix v.path (workDir ++ [os.PathSeparator]))
      = (((Walk workDir).filter
          (fun v => !v.IsDir && decide (Ext os v.path = goString ".dll"))).map
        (fun v => v.path)).map (fun path => TrimPrefix path (workDir ++ [os.PathSeparator])) := by
    rw [List.map_map]
    rfl
  rw [hres, hmap, hrels, List.map_map]
  have hid : ((fun path => TrimPrefix path (workDir ++ [os.PathSeparator]))
      ∘ fun rel => workDir ++ [os.PathSeparator] ++ rel) = id := by
    funext rel
    exact TrimPrefix_append _ rel
  rw [hid, List.map_id]

/-- Witness of C15 as amended: the sample walk of `C:\Game` gives
`addons.dll\arcdps.dll` and `d3d11.dll`, without the working directory. -/
theorem getDllPaths_exact_extension_witness :
    (∀ v ∈ sampleWalk sampleWorkDir, v.err = none)
    ∧ getDllPaths GoOS.windows sampleWalk sampleWorkDir
      = some [winPath ["addons.dll", "arcdps.dll"], goString "d3d11.dll"] :=
  ⟨by decide, (getDllPaths_exact_extension GoOS.windows sampleWalk sampleWorkDir
    (by decide)).2.2.1 [winPath ["addons.dll", "arcdps.dll"], goString "d3d11.dll"]
      (by decide)⟩

/-- Counterexample to C15 as stated: in the sample walk the non-directory
`C:\Game\D3D11.DLL` has the extension `.dll` under case-insensitive comparison,
but `getDllPaths` returns no entry for it. And with the root `C:\` as working
directory the entry for `C:\d3d11.dll` is the whole path: the trimmed prefix is
the working directory followed by one more separator, which the path does not
start with. -/
theorem uppercase_extension_not_selected :
    (⟨winPath ["C:", "Game", "D3D11.DLL"], false, none⟩ : WalkVisit) ∈ sampleWalk sampleWorkDir
    ∧ getDllPaths GoOS.windows sampleWalk sampleWorkDir
      = some [winPath ["addons.dll", "arcdps.dll"], goString "d3d11.dll"]
    ∧ goString "D3D11.DLL" ∉ [winPath ["addons.dll", "arcdps.dll"], goString "d3d11.dll"]
    ∧ getDllPaths GoOS.windows rootWalk rootWorkDir = some [winPath ["C:", "d3d11.dll"]]
    ∧ winPath ["C:", "d3d11.dll"] = rootWorkDir ++ goString "d3d11.dll" := by
  decide

/-- C16: the labels are not mutually exclusive. The module with no exports and
no bytes has no true label; the module exporting all six marker names whose
bytes hold all three marker patterns has all nine labels true; in particular a
module is `isD3D11Shim` and `isNexus` at once. -/
theorem labels_not_exclusive :
    (∃ info : dllInfo WinVersion,
      parseDll (moduleWorld [] [] (.ok sampleVersion)) samplePath = (some info, none)
      ∧ info.isArc = false ∧ info.isArcAddon = false ∧ info.isAddonLoaderShim = false
      ∧ info.isAddonLoaderCore = false ∧ info.isAddonLoaderAddon = false
      ∧ info.isNexus = false ∧ info.isNexusAddon = false ∧ info.isD3D11Shim = false
      ∧ info.isDXGIShim = false)
    ∧ (∃ info : dllInfo WinVersion,
      parseDll fullWorld samplePath = (some info, none)
      ∧ info.isArc = true ∧ info.isArcAddon = true ∧ info.isAddonLoaderShim = true
      ∧ info.isAddonLoaderCore = true ∧ info.isAddonLoaderAddon = true
      ∧ info.isNexus = true ∧ info.isNexusAddon = true ∧ info.isD3D11Shim = true
      ∧ info.isDXGIShim = true)
    ∧ (∃ info : dllInfo WinVersion,
      parseDll (moduleWorld [goString "D3D11CreateDevice"] nexusApiUrl (.ok sampleVersion))
        samplePath = (some info, none)
      ∧ info.isD3D11Shim = true ∧ info.isNexus = true) := by
  refine ⟨⟨_, parseDll_extracted _ samplePath ⟨⟨[]⟩⟩ (moduleFile []) [] rfl rfl rfl, ?_⟩,
    ⟨_, parseDll_extracted fullWorld samplePath ⟨⟨[]⟩⟩
      (moduleFile [goString "D3D11CreateDevice", goString "CreateDXGIFactory", goString "e0",
        goString "get_init_addr", goString "gw2addon_load", goString "GetAddonDef"])
      (addonLoaderDllUtf16 ++ addonLoaderCoreDescriptionUtf16 ++ nexusApiUrl) rfl rfl rfl, ?_⟩,
    ⟨_, parseDll_extracted _ samplePath ⟨⟨[]⟩⟩ (moduleFile [goString "D3D11CreateDevice"])
      nexusApiUrl rfl rfl rfl, ?_⟩⟩
  · decide
  · decide
  · decide

/-- C17: classification is monotone. If every export name of module A occurs
in module B and the bytes of B are the bytes of A between a prefix and a
suffix, every label that is true in the record of A is true in the record of
B. -/
theorem labels_monotone {V : Type} [Inhabited V] (w w2 : World V)
    (dllPath dllPath2 : GoString) (opened peFile opened2 peFile2 : File)
    (fileBytes pre suf : List Nat)
    (hNew : w.New dllPath = .ok opened) (hParse : w.Parse opened = .ok peFile)
    (hRead : w.ReadFile dllPath = .ok fileBytes)
    (hNew2 : w2.New dllPath2 = .ok opened2) (hParse2 : w2.Parse opened2 = .ok peFile2)
    (hRead2 : w2.ReadFile dllPath2 = .ok (pre ++ fileBytes ++ suf))
    (hSub : ∀ name ∈ peFile.exportNames, name ∈ peFile2.exportNames) :
    ∃ info info2, parseDll w dllPath = (some info, none)
      ∧ parseDll w2 dllPath2 = (some info2, none)
      ∧ (info.isArc = true → info2.isArc = true)
      ∧ (info.isArcAddon = true → info2.isArcAddon = true)
      ∧ (info.isAddonLoaderShim = true → info2.isAddonLoaderShim = true)
      ∧ (info.isAddonLoaderCore = true → info2.isAddonLoaderCore = true)
      ∧ (info.isAddonLoaderAddon = true → info2.isAddonLoaderAddon = true)
      ∧ (info.isNexus = true → info2.isNexus = true)
      ∧ (info.isNexusAddon = true → info2.isNexusAddon = true)
      ∧ (info.isD3D11Shim = true → info2.isD3D11Shim = true)
      ∧ (info.isDXGIShim = true → info2.isDXGIShim = true) := by
  have hloop : ∀ name, exportLoop name peFile.Export.Functions = true →
      exportLoop name peFile2.Export.Functions = true :=
    fun name => exportLoop_mono name _ _ (hSub name)
  have hD : isD3D11Shim peFile = true → isD3D11Shim peFile2 = true := hloop _
  have hX : isDXGIShim peFile = true → isDXGIShim peFile2 = true := hloop _
  have hc : ∀ pat, Contains fileBytes pat = true →
      Contains (pre ++ fileBytes ++ suf) pat = true :=
    fun pat => Contains_mono fileBytes pat pre suf
  refine ⟨_, _, parseDll_extracted w dllPath opened peFile fileBytes hNew hParse hRead,
    parseDll_extracted w2 dllPath2 opened2 peFile2 _ hNew2 hParse2 hRead2,
    hloop _, hloop _, ?_, ?_, hloop _, ?_, hloop _, hD, hX⟩
  · simp only [isAddonLoaderShim_eq, Bool.and_eq_true, Bool.or_eq_true]
    rintro ⟨h1 | h1, h2⟩
    · exact ⟨Or.inl (hD h1), hc _ h2⟩
    · exact ⟨Or.inr (hX h1), hc _ h2⟩
  · simp only [isAddonLoaderCore_eq, Bool.and_eq_true]
    rintro ⟨⟨h1, h2⟩, h3⟩
    exact ⟨⟨hD h1, hX h2⟩, hc _ h3⟩
  · simp only [isNexus_eq, Bool.and_eq_true]
    rintro ⟨h1, h2⟩
    exact ⟨hD h1, hc _ h2⟩

/-- Witness of C17: a Nexus module, and the same with one more export and bytes
added on both sides; the larger one is still Nexus. -/
theorem labels_monotone_witness :
    ∃ info info2 : dllInfo WinVersion,
      parseDll (moduleWorld [goString "D3D11CreateDevice"] nexusApiUrl (.ok sampleVersion))
        samplePath = (some info, none)
      ∧ parseDll (moduleWorld [goString "e0", goString "D3D11CreateDevice"]
          ([1, 2] ++ nexusApiUrl ++ [3]) (.ok sampleVersion)) samplePath = (some info2, none)
      ∧ (info.isNexus = true → info2.isNexus = true) := by
  obtain ⟨info, info2, h1, h2, _, _, _, _, _, h, _⟩ := labels_monotone
    (moduleWorld [goString "D3D11CreateDevice"] nexusApiUrl (.ok sampleVersion))
    (moduleWorld [goString "e0", goString "D3D11CreateDevice"]
      ([1, 2] ++ nexusApiUrl ++ [3]) (.ok sampleVersion))
    samplePath samplePath ⟨⟨[]⟩⟩ (moduleFile [goString "D3D11CreateDevice"]) ⟨⟨[]⟩⟩
    (moduleFile [goString "e0", goString "D3D11CreateDevice"]) nexusApiUrl [1, 2] [3]
    rfl rfl rfl rfl rfl rfl
    (by
      intro name hname
      simp only [File.exportNames, moduleFile, List.map_map, List.map_cons, List.map_nil,
        Function.comp, List.mem_cons, List.mem_singleton, List.not_mem_nil, or_false]
        at hname ⊢
      exact Or.inr hname)
  exact ⟨info, info2, h1, h2, h⟩

/-- C18: the nine labels depend only on the set of export names. Two modules
with the same raw bytes whose export lists contain the same names, in any order
and with any multiplicity, get the same nine labels. -/
theorem labels_depend_on_name_set {V : Type} [Inhabited V] (w w2 : World V)
    (dllPath dllPath2 : GoString) (opened peFile opened2 peFile2 : File)
    (fileBytes : List Nat)
    (hNew : w.New dllPath = .ok opened) (hParse : w.Parse opened = .ok peFile)
    (hRead : w.ReadFile dllPath = .ok fileBytes)
    (hNew2 : w2.New dllPath2 = .ok opened2) (hParse2 : w2.Parse opened2 = .ok peFile2)
    (hRead2 : w2.ReadFile dllPath2 = .ok fileBytes)
    (hSame : ∀ name, name ∈ peFile.exportNames ↔ name ∈ peFile2.exportNames) :
    ∃ info info2, parseDll w dllPath = (some info, none)
      ∧ parseDll w2 dllPath2 = (some info2, none)
      ∧ info.isArc = info2.isArc ∧ info.isArcAddon = info2.isArcAddon
      ∧ info.isAddonLoaderShim = info2.isAddonLoaderShim
      ∧ info.isAddonLoaderCore = info2.isAddonLoaderCore
      ∧ info.isAddonLoaderAddon = info2.isAddonLoaderAddon
      ∧ info.isNexus = info2.isNexus ∧ info.isNexusAddon = info2.isNexusAddon
      ∧ info.isD3D11Shim = info2.isD3D11Shim ∧ info.isDXGIShim = info2.isDXGIShim := by
  have hloop : ∀ name, exportLoop name peFile.Export.Functions
      = exportLoop name peFile2.Export.Functions :=
    fun name => exportLoop_congr name _ _ (hSame name)
  have hD : isD3D11Shim peFile = isD3D11Shim peFile2 := hloop _
  have hX : isDXGIShim peFile = isDXGIShim peFile2 := hloop _
  refine ⟨_, _, parseDll_extracted w dllPath opened peFile fileBytes hNew hParse hRead,
    parseDll_extracted w2 dllPath2 opened2 peFile2 fileBytes hNew2 hParse2 hRead2,
    hloop _, hloop _, ?_, ?_, hloop _, ?_, hloop _, hD, hX⟩
  · simp only [isAddonLoaderShim_eq, hD, hX]
  · simp only [isAddonLoaderCore_eq, hD, hX]
  · simp only [isNexus_eq, hD]

/-- Witness of C18: the exports `e0, D3D11CreateDevice` and the exports
`D3D11CreateDevice, e0, D3D11CreateDevice` over the same bytes. -/
theorem labels_depend_on_name_set_witness :
    ∃ info info2 : dllInfo WinVersion,
      parseDll (moduleWorld [goString "e0", goString "D3D11CreateDevice"] nexusApiUrl
        (.ok sampleVersion)) samplePath = (some info, none)
      ∧ parseDll (moduleWorld
          [goString "D3D11CreateDevice", goString "e0", goString "D3D11CreateDevice"]
          nexusApiUrl (.ok sampleVersion)) samplePath = (some info2, none)
      ∧ info.isArc = info2.isArc ∧ info.isNexus = info2.isNexus
      ∧ info.isD3D11Shim = info2.isD3D11Shim := by
  obtain ⟨info, info2, h1, h2, h3, _, _, _, _, h4, _, h5, _⟩ := labels_depend_on_name_set
    (moduleWorld [goString "e0", goString "D3D11CreateDevice"] nexusApiUrl (.ok sampleVersion))
    (moduleWorld [goString "D3D11CreateDevice", goString "e0", goString "D3D11CreateDevice"]
      nexusApiUrl (.ok sampleVersion))
    samplePath samplePath ⟨⟨[]⟩⟩ (moduleFile [goString "e0", goString "D3D11CreateDevice"])
    ⟨⟨[]⟩⟩
    (moduleFile [goString "D3D11CreateDevice", goString "e0", goString "D3D11CreateDevice"])
    nexusApiUrl rfl rfl rfl rfl rfl rfl
    (by
      intro name
      simp only [File.exportNames, moduleFile, List.map_map, List.map_cons, List.map_nil,
        Function.comp, List.mem_cons, List.mem_singleton, List.not_mem_nil, or_false]
      tauto)
  exact ⟨info, info2, h1, h2, h3, h4, h5⟩

/-! ## `asciiToWideString` and concatenation -/

theorem asciiToWideString_append (x y : GoString) (hx : ∀ c ∈ x, c < 128)
    (hy : ∀ c ∈ y, c < 128) :
    asciiToWideString (x ++ y)
      = some (x.flatMap (fun c => [c, 0]) ++ y.flatMap (fun c => [c, 0])) := by
  have hxy : ∀ c ∈ x ++ y, c < 128 := by
    intro c hc
    rcases List.mem_append.1 hc with h | h
    · exact hx c h
    · exact hy c h
  rw [asciiToWideString_ascii _ hxy, List.flatMap_append]

theorem addonLoader_literal_ascii : ∀ c ∈ goString "addonLoader.dll", c < 128 := by
  decide

/-- C19: for ASCII strings `a` and `b`, `asciiToWideString` of
`a ++ "addonLoader.dll" ++ b` is the wide form of `a`, then
`addonLoaderDllUtf16`, then the wide form of `b` (the function distributes over
concatenation of ASCII strings), so any buffer `p ++ that ++ q` contains
`addonLoaderDllUtf16`, and a module with such bytes that exports
`D3D11CreateDevice` or `CreateDXGIFactory` has `isAddonLoaderShim = true`. -/
theorem wide_literal_detected {V : Type} [Inhabited V] (a b : GoString) (p q : List Nat)
    (ha : ∀ c ∈ a, c < 128) (hb : ∀ c ∈ b, c < 128) :
    (∀ x y : GoString, (∀ c ∈ x, c < 128) → (∀ c ∈ y, c < 128) →
      ∃ wx wy, asciiToWideString x = some wx ∧ asciiToWideString y = some wy
        ∧ asciiToWideString (x ++ y) = some (wx ++ wy))
    ∧ ∃ wa wb wide, asciiToWideString a = some wa ∧ asciiToWideString b = some wb
      ∧ asciiToWideString (a ++ goString "addonLoader.dll" ++ b) = some wide
      ∧ wide = wa ++ addonLoaderDllUtf16 ++ wb
      ∧ Contains (p ++ wide ++ q) addonLoaderDllUtf16 = true
      ∧ ∀ (w : World V) (dllPath : GoString) (opened peFile : File),
          w.New dllPath = .ok opened → w.Parse opened = .ok peFile →
          w.ReadFile dllPath = .ok (p ++ wide ++ q) →
          (goString "D3D11CreateDevice" ∈ peFile.exportNames
            ∨ goString "CreateDXGIFactory" ∈ peFile.exportNames) →
          ∃ info, parseDll w dllPath = (some info, none)
            ∧ info.isAddonLoaderShim = true := by
  have hlit := addonLoader_literal_ascii
  have hal : ∀ c ∈ a ++ goString "addonLoader.dll", c < 128 := by
    intro c hc
    rcases List.mem_append.1 hc with h | h
    · exact ha c h
    · exact hlit c h
  have hwide : asciiToWideString (a ++ goString "addonLoader.dll" ++ b)
      = some (a.flatMap (fun c => [c, 0]) ++ addonLoaderDllUtf16
          ++ b.flatMap (fun c => [c, 0])) := by
    rw [asciiToWideString_append _ _ hal hb, List.flatMap_append]
    have h : addonLoaderDllUtf16 = (goString "addonLoader.dll").flatMap (fun c => [c, 0]) := by
      decide
    rw [h]
  have hcont : Contains (p ++ (a.flatMap (fun c => [c, 0]) ++ addonLoaderDllUtf16
      ++ b.flatMap (fun c => [c, 0])) ++ q) addonLoaderDllUtf16 = true :=
    (Contains_iff _ _).2
      ⟨p ++ a.flatMap (fun c => [c, 0]), b.flatMap (fun c => [c, 0]) ++ q, by simp⟩
  refine ⟨?_, _, _, _, asciiToWideString_ascii a ha, asciiToWideString_ascii b hb, hwide, rfl,
    hcont, ?_⟩
  · intro x y hx hy
    exact ⟨_, _, asciiToWideString_ascii x hx, asciiToWideString_ascii y hy,
      asciiToWideString_append x y hx hy⟩
  · intro w dllPath opened peFile hNew hParse hRead hExp
    refine ⟨_, parseDll_extracted w dllPath opened peFile _ hNew hParse hRead, ?_⟩
    simp only [isAddonLoaderShim_eq, Bool.and_eq_true, Bool.or_eq_true, hcont, and_true]
    rcases hExp with h | h
    · exact Or.inl ((isD3D11Shim_iff peFile).2 h)
    · exact Or.inr ((isDXGIShim_iff peFile).2 h)

/-- Witness of C19: the wide string `bin/addonLoader.dll.bak` after the byte 7,
in a module exporting `CreateDXGIFactory`. -/
theorem wide_literal_detected_witness :
    ∃ wide, asciiToWideString (goString "bin/" ++ goString "addonLoader.dll" ++ goString ".bak")
        = some wide
      ∧ Contains ([7] ++ wide ++ []) addonLoaderDllUtf16 = true
      ∧ ∃ info : dllInfo WinVersion,
        parseDll (moduleWorld [goString "CreateDXGIFactory"] ([7] ++ wide ++ [])
          (.ok sampleVersion)) samplePath = (some info, none)
        ∧ info.isAddonLoaderShim = true := by
  obtain ⟨_, wa, wb, wide, _, _, hwide, _, hcont, hmod⟩ :=
    @wide_literal_detected WinVersion _ (goString "bin/") (goString ".bak") [7] []
      (by decide) (by decide)
  exact ⟨wide, hwide, hcont,
    hmod (moduleWorld [goString "CreateDXGIFactory"] ([7] ++ wide ++ []) (.ok sampleVersion))
      samplePath ⟨⟨[]⟩⟩ (moduleFile [goString "CreateDXGIFactory"]) rfl rfl rfl
      (Or.inr (by decide))⟩

/-! ## `asciiToWideString` on every string -/

theorem rangeFrom_index_bounds (s : GoString) (i skip : Nat) :
    ∀ ic ∈ rangeFrom i skip s, i ≤ ic.1 ∧ ic.1 < i + s.length := by
  induction s generalizing i skip with
  | nil => simp [rangeFrom]
  | cons c rest ih =>
    cases skip with
    | zero =>
      intro ic hic
      simp only [rangeFrom, List.mem_cons] at hic
      rcases hic with h | h
      · subst h
        simp
      · have := ih (i + 1) _ ic h
        simp only [List.length_cons]
        omega
    | succ k =>
      intro ic hic
      simp only [rangeFrom] at hic
      have := ih (i + 1) k ic hic
      simp only [List.length_cons]
      omega

theorem wideLoop_total (n : Nat) (visits : List (Nat × Nat)) (hv : ∀ ic ∈ visits, ic.1 < n)
    (b : List Nat) (hlen : b.length = 2 * n) (hodd : ∀ j, j < n → b[2 * j + 1]? = some 0) :
    ∃ b2, visits.foldlM
        (fun b ic => (setIndex b (ic.1 * 2) (ic.2 % 256)).bind
          (fun b1 => setIndex b1 (ic.1 * 2 + 1) 0)) b = some b2
      ∧ b2.length = 2 * n ∧ ∀ j, j < n → b2[2 * j + 1]? = some 0 := by
  induction visits generalizing b with
  | nil => exact ⟨b, rfl, hlen, hodd⟩
  | cons ic rest ih =>
    have hi : ic.1 < n := hv ic (List.mem_cons_self _ _)
    have hrest : ∀ x ∈ rest, x.1 < n := fun x hx => hv x (List.mem_cons_of_mem _ hx)
    have h1 : setIndex b (ic.1 * 2) (ic.2 % 256) = some (b.set (ic.1 * 2) (ic.2 % 256)) := by
      unfold setIndex
      rw [if_pos (by omega)]
    have h2 : setIndex (b.set (ic.1 * 2) (ic.2 % 256)) (ic.1 * 2 + 1) 0
        = some ((b.set (ic.1 * 2) (ic.2 % 256)).set (ic.1 * 2 + 1) 0) := by
      unfold setIndex
      rw [if_pos (by rw [List.length_set]; omega)]
    have hlen2 : ((b.set (ic.1 * 2) (ic.2 % 256)).set (ic.1 * 2 + 1) 0).length = 2 * n := by
      rw [List.length_set, List.length_set, hlen]
    have hodd2 : ∀ j, j < n →
        ((b.set (ic.1 * 2) (ic.2 % 256)).set (ic.1 * 2 + 1) 0)[2 * j + 1]? = some 0 := by
      intro j hj
      by_cases hij : ic.1 = j
      · subst hij
        have e : 2 * ic.1 + 1 = ic.1 * 2 + 1 := by omega
        rw [e, List.getElem?_set_eq_of_lt]
        rw [List.length_set]; omega
      · rw [List.getElem?_set_ne (by omega), List.getElem?_set_ne (by omega)]
        exact hodd j hj
    obtain ⟨b2, hb2, hl, ho⟩ := ih hrest _ hlen2 hodd2
    refine ⟨b2, ?_, hl, ho⟩
    rw [List.foldlM_cons]
    simp only [h1, Option.some_bind, h2, Option.bind_eq_bind]
    exact hb2

/-- C20: `asciiToWideString` returns on every string, valid UTF-8 or not: each
index `i` of the range loop is below `len(s)`, so both writes `b[i*2]` and
`b[i*2+1]` are inside the buffer of `2*len(s)` bytes; the result has exactly
`2*len(s)` bytes and every odd-indexed byte is 0. For the two bytes of `é`
the result is `E9 00 00 00` (hex), for the invalid byte `FF` it is `FD 00`. -/
theorem asciiToWideString_total (s : GoString) :
    (∀ ic ∈ rangeString s, ic.1 < s.length ∧ ic.1 * 2 + 1 < s.length * 2)
    ∧ (∃ b, asciiToWideString s = some b ∧ b.length = 2 * s.length
        ∧ ∀ j, j < s.length → b[2 * j + 1]? = some 0)
    ∧ asciiToWideString [0xC3, 0xA9] = some [0xE9, 0, 0, 0]
    ∧ asciiToWideString [0xFF] = some [0xFD, 0]
    ∧ asciiToWideString [0xE2, 0x82] = some [0xFD, 0, 0xFD, 0] := by
  have hb : ∀ ic ∈ rangeString s, ic.1 < s.length := by
    intro ic hic
    have := rangeFrom_index_bounds s 0 0 ic hic
    omega
  refine ⟨fun ic hic => ⟨hb ic hic, by have := hb ic hic; omega⟩, ?_, by decide, by decide,
    by decide⟩
  have hlen : (List.replicate (s.length * 2) 0).length = 2 * s.length := by
    rw [List.length_replicate]; omega
  have hodd : ∀ j, j < s.length → (List.replicate (s.length * 2) 0)[2 * j + 1]? = some 0 := by
    intro j hj
    rw [List.getElem?_replicate_of_lt (by omega)]
  exact wideLoop_total s.length (rangeString s) hb _ hlen hodd

end Gw2AddonDebug
